import Mathlib

/-!
Shallow embedding of the Winter Pacman multiplayer server
(`src/server.py`, class `WebSocketPacmanServer`) together with proofs
about its role assignment, color pool, collision resolution, message
dispatch and respawn scheduling.

Conventions of the embedding:
* the Python player dictionary is an association list `List (Nat × Player)`
  in insertion order (Python dicts preserve insertion order);
* dictionary keys that are written at registration and possibly absent in
  a raw dictionary (`color`, `score`, `lives`) are `Option` fields, so the
  `if 'lives' not in player` guards of `assign_roles` can be embedded
  faithfully;
* `self.dots` / `self.power_pellets` / `self.walls` alias the lists stored
  in `self.maps[self.current_map]`; the embedding therefore stores them
  once, inside `maps`, and every read/write goes through the current map,
  which models the Python reference aliasing exactly;
* all ambient randomness (`random.choice`, `random.random`) is passed in
  explicitly through an `Env` of choice functions;
* calls to the external database collaborator (`update_player_rating`) and
  the voice relays are recorded in event logs inside the state.
-/

namespace PacmanServer

/-- RGB color triple; Python stores list values and set members as tuples. -/
abbrev Color := Nat × Nat × Nat

inductive Role
  | pacman
  | ghost
deriving DecidableEq, Repr

/-- `type` field of a snowflake (`regular` / `crystal` / `star`). -/
inductive DotType
  | regular
  | crystal
  | star
deriving DecidableEq, Repr

/-- A snowflake collectible (`dots` entries). A missing `eaten` key in Python
is read as `False` via `get('eaten', False)`, so a plain `Bool` starting at
`false` is extensionally identical. -/
structure Dot where
  x : Int
  y : Int
  size : Int
  dtype : DotType
  eaten : Bool
deriving DecidableEq, Repr

/-- An icicle power pellet (`power_pellets` entries, explicit `eaten`). -/
structure Pellet where
  x : Int
  y : Int
  eaten : Bool
deriving DecidableEq, Repr

/-- A wall rectangle. -/
structure Wall where
  x : Int
  y : Int
  width : Int
  height : Int
deriving DecidableEq, Repr

/-- One map produced by the content generator (`generate_winter_maps`).
Cosmetic fields (name, background, decorative snowflakes) carry no game
logic and are omitted. -/
structure GameMap where
  walls : List Wall
  dots : List Dot
  power_pellets : List Pellet
  pacman_spawn : Int × Int
  ghost_spawns : List (Int × Int)
deriving DecidableEq, Repr, Inhabited

/-- One player record (the per-connection dictionary built in
`handle_client`). The `websocket` entry is represented by the player id in
`connected_clients`. -/
structure Player where
  x : Int
  y : Int
  role : Role
  color : Option Color
  score : Option Nat
  power_mode : Bool
  power_timer : Int
  lives : Option Int
  name : String
  voice_chat : Bool
  muted : Bool
deriving DecidableEq, Repr

/-- A recorded call to `db.update_player_rating (username, score, is_win)`. -/
structure RatingCall where
  username : String
  score : Nat
  is_win : Bool
deriving DecidableEq, Repr

/-- A recorded voice relay: sender, payload, sequence, receiving player ids. -/
structure VoiceSend where
  sender : Nat
  audio_data : String
  sequence : Int
  recipients : List Nat
deriving DecidableEq, Repr

/-- Full server state (the mutable attributes of `WebSocketPacmanServer`). -/
structure ServerState where
  players : List (Nat × Player)
  pacman_player_id : Option Nat
  player_counter : Nat
  used_ghost_colors : List Color
  current_map : Nat
  maps : List GameMap
  dot_respawn_interval : Int
  last_respawn_time : Int
  connected_clients : List Nat
  ratingCalls : List RatingCall
  sentVoice : List VoiceSend
deriving DecidableEq, Repr

/-- Explicit random source: `assignPick` models `random.choice(player_ids)`,
`colorPick` the exhausted-pool `random.choice(self.ghost_colors_available)`,
`spawnPick` `random.choice(ghost_spawns)` (keyed by the player id the draw
is made for), `now` the wall clock, and the draw streams model
`random.random()` per item index. -/
structure Env where
  now : Int
  assignPick : Nat → Nat
  colorPick : Nat → Nat
  spawnPick : Nat → Nat
  dotDraw : Nat → ℚ
  pelletDraw : Nat → ℚ

/-- The fixed winter evader palette `ghost_colors_available`. -/
def ghost_colors_available : List Color :=
  [(173, 216, 230), (255, 182, 193), (152, 251, 152), (221, 160, 221),
   (240, 248, 255), (176, 224, 230), (255, 250, 205)]

/-- The fixed hunter color `[255, 255, 0]` assigned in `assign_roles`. -/
def pacman_color : Color := (255, 255, 0)

/-- `get_ghost_color`: first palette color not in the used set (and mark it
used), else a uniformly random palette color (pool unchanged). Returns the
color together with the updated used set. -/
def get_ghost_color (used : List Color) (k : Nat) : Color × List Color :=
  match ghost_colors_available.filter (fun c => ¬ used.contains c) with
  | c :: _ => (c, used.insert c)
  | [] => (ghost_colors_available.getD (k % ghost_colors_available.length)
      pacman_color, used)

/-- `check_wall_collision`: strict axis-aligned overlap between the
`player_size`-pixel player box centered at `(x, y)` and any wall. -/
def check_wall_collision (walls : List Wall) (x y : Int)
    (player_size : Int := 30) : Bool :=
  walls.any fun w =>
    decide (x + player_size / 2 > w.x ∧
      x - player_size / 2 < w.x + w.width ∧
      y + player_size / 2 > w.y ∧
      y - player_size / 2 < w.y + w.height)

/-- `get_valid_position`: accept the target, else slide on x, else slide on
y, else stay. -/
def get_valid_position (walls : List Wall) (old_x old_y new_x new_y : Int) :
    Int × Int :=
  if ¬ check_wall_collision walls new_x new_y then (new_x, new_y)
  else if ¬ check_wall_collision walls new_x old_y then (new_x, old_y)
  else if ¬ check_wall_collision walls old_x new_y then (old_x, new_y)
  else (old_x, old_y)

/-- The map currently aliased by `self.dots` / `self.walls` / …. -/
def currentMap (s : ServerState) : GameMap :=
  s.maps.getD s.current_map default

/-- In-place mutation of one value of the player dictionary. -/
def updatePlayer (ps : List (Nat × Player)) (pid : Nat) (f : Player → Player) :
    List (Nat × Player) :=
  ps.map fun q => if q.1 = pid then (q.1, f q.2) else q

/-- In-place mutation of one player of the state. -/
def updPlayer (s : ServerState) (pid : Nat) (f : Player → Player) :
    ServerState :=
  { s with players := updatePlayer s.players pid f }

/-- Write through the alias `self.dots` into the current map. -/
def setCurrentDots (s : ServerState) (ds : List Dot) : ServerState :=
  { s with maps := s.maps.set s.current_map ({ s.maps.getD s.current_map default with dots := ds }) }

/-- Write through the alias `self.power_pellets` into the current map. -/
def setCurrentPellets (s : ServerState) (ps : List Pellet) : ServerState :=
  { s with maps := s.maps.set s.current_map ({ s.maps.getD s.current_map default with power_pellets := ps }) }

/-- The `for player_id in player_ids` loop body of `assign_roles`: give the
chosen hunter the fixed color and default lives/score when the keys are
absent; force everyone else to `ghost`, issuing a color only when the key
is absent. Threads the used-color set through the iteration. -/
def assign_loop (env : Env) (pacId : Nat) :
    List (Nat × Player) → List Color → List (Nat × Player) × List Color
  | [], used => ([], used)
  | (id, p) :: rest, used =>
    if id = pacId then
      let p' := { p with
        role := Role.pacman
        color := some pacman_color
        lives := some (p.lives.getD 3)
        score := some (p.score.getD 0) }
      let r := assign_loop env pacId rest used
      ((id, p') :: r.1, r.2)
    else
      match p.color with
      | some c =>
        let r := assign_loop env pacId rest used
        ((id, { p with role := Role.ghost, color := some c }) :: r.1, r.2)
      | none =>
        let cu := get_ghost_color used (env.colorPick id)
        let r := assign_loop env pacId rest cu.2
        ((id, { p with role := Role.ghost, color := some cu.1 }) :: r.1, r.2)

/-- The hunter designation after the `if self.pacman_player_id is None or
... not in self.players` check of `assign_roles`: the current designation
when still valid, else a uniformly random player id. -/
def pick_pacman (k : Nat) (s : ServerState) : Nat :=
  let player_ids := s.players.map Prod.fst
  match s.pacman_player_id with
  | some pid =>
    if player_ids.contains pid then pid
    else player_ids.getD (k % player_ids.length) 0
  | none => player_ids.getD (k % player_ids.length) 0

/-- `assign_roles`: nothing on an empty registry; otherwise keep the current
hunter when still connected (picking a uniformly random player when not),
then rewrite every player's role and role-appropriate color. -/
def assign_roles (env : Env) (k : Nat) (s : ServerState) : ServerState :=
  if s.players = [] then s
  else
    let pacId := pick_pacman k s
    let r := assign_loop env pacId s.players s.used_ghost_colors
    { s with players := r.1, used_ghost_colors := r.2,
             pacman_player_id := some pacId }

/-- `handle_client` registration prefix: allocate the next id, register the
connection, create the player record at the current map's hunter spawn with
a pool color, 3 lives and score 0, then re-run role assignment. Returns the
new state together with the allocated player id. -/
def register (env : Env) (s : ServerState) : ServerState × Nat :=
  let counter := s.player_counter + 1
  let pid := counter
  let m := currentMap s
  let cu := get_ghost_color s.used_ghost_colors (env.colorPick pid)
  let p : Player :=
    { x := m.pacman_spawn.1, y := m.pacman_spawn.2, role := Role.ghost,
      color := some cu.1, score := some 0, power_mode := false,
      power_timer := 0, lives := some 3, name := "Player" ++ toString pid,
      voice_chat := true, muted := false }
  let s' : ServerState :=
    { s with player_counter := counter,
             connected_clients := s.connected_clients ++ [pid],
             players := s.players ++ [(pid, p)],
             used_ghost_colors := cu.2 }
  (assign_roles env (env.assignPick 0) s', pid)

/-- `cleanup_player`: persist the rating when the leaver is the hunter
(counted as a win), release the color of a ghost, vacate the hunter
designation when applicable, drop the connection and record, and re-run
role assignment. No-op for an unknown id. -/
def cleanup_player (env : Env) (s : ServerState) (pid : Nat) : ServerState :=
  match s.players.lookup pid with
  | none => s
  | some p =>
    let s1 :=
      if s.pacman_player_id = some pid then
        { s with ratingCalls :=
            s.ratingCalls ++ [⟨p.name, p.score.getD 0, true⟩] }
      else s
    let s2 :=
      if p.role = Role.ghost then
        match p.color with
        | some c => { s1 with used_ghost_colors := s1.used_ghost_colors.erase c }
        | none => s1
      else s1
    let s3 :=
      if s2.pacman_player_id = some pid then
        { s2 with pacman_player_id := none }
      else s2
    let s4 : ServerState :=
      { s3 with connected_clients := s3.connected_clients.erase pid,
                players := s3.players.filter (fun q => q.1 ≠ pid) }
    assign_roles env (env.assignPick 0) s4

/-- Point value of a snowflake: 10, crystal 15, star 20. -/
def dotPoints : DotType → Nat
  | DotType.regular => 10
  | DotType.crystal => 15
  | DotType.star => 20

/-- Strict overlap of the 30-pixel hunter box at `(x, y)` with the
size-derived box of a snowflake. -/
def dotOverlap (x y : Int) (d : Dot) : Bool :=
  decide (x - 15 < d.x + d.size ∧ x + 15 > d.x - d.size ∧
    y - 15 < d.y + d.size ∧ y + 15 > d.y - d.size)

/-- The `for snowflake in self.dots` loop of `check_snowflake_collision`:
mark each overlapped unconsumed snowflake eaten and accumulate its points. -/
def snowflake_loop (x y : Int) : List Dot → List Dot × Nat
  | [] => ([], 0)
  | d :: rest =>
    let r := snowflake_loop x y rest
    if ¬ d.eaten ∧ dotOverlap x y d then
      ({ d with eaten := true } :: r.1, dotPoints d.dtype + r.2)
    else (d :: r.1, r.2)

/-- `check_snowflake_collision`: eat every overlapped unconsumed snowflake
of the current map and add the points to the hunter's score. -/
def check_snowflake_collision (s : ServerState) (pid : Nat) (x y : Int) :
    ServerState :=
  let r := snowflake_loop x y (currentMap s).dots
  let s' := setCurrentDots s r.1
  updPlayer s' pid fun p => { p with score := some (p.score.getD 0 + r.2) }

/-- Strict overlap of the hunter box with the fixed 5-pixel icicle box. -/
def pelletOverlap (x y : Int) (ic : Pellet) : Bool :=
  decide (x - 15 < ic.x + 5 ∧ x + 15 > ic.x - 5 ∧
    y - 15 < ic.y + 5 ∧ y + 15 > ic.y - 5)

/-- The `for icicle in self.power_pellets` loop of `check_icicle_collision`:
mark overlapped unconsumed icicles eaten; report whether any was hit. -/
def icicle_loop (x y : Int) : List Pellet → List Pellet × Bool
  | [] => ([], false)
  | ic :: rest =>
    let r := icicle_loop x y rest
    if ¬ ic.eaten ∧ pelletOverlap x y ic then
      ({ ic with eaten := true } :: r.1, true)
    else (ic :: r.1, r.2)

/-- `check_icicle_collision`: consume overlapped icicles; on a hit set the
hunter's `power_mode` and reset `power_timer` to 300. -/
def check_icicle_collision (s : ServerState) (pid : Nat) (x y : Int) :
    ServerState :=
  let r := icicle_loop x y (currentMap s).power_pellets
  let s' := setCurrentPellets s r.1
  if r.2 then
    updPlayer s' pid fun p => { p with power_mode := true, power_timer := 300 }
  else s'

/-- Strict overlap of the hunter box at `(x, y)` with a ghost's 30-pixel box. -/
def ghostOverlap (x y gx gy : Int) : Bool :=
  decide (x - 15 < gx + 15 ∧ x + 15 > gx - 15 ∧
    y - 15 < gy + 15 ∧ y + 15 > gy - 15)

/-- One iteration of the `for ghost_id, ghost_data in self.players.items()`
loop of `check_ghost_collision`, reading the ghost's live record from the
evolving state. In power mode an overlapped ghost is frozen (teleported to
a random evader spawn, +200 for the hunter); otherwise the hunter loses a
life, and at 0 lives the hunter designation is vacated, the rating call is
recorded, roles are reassigned and the former hunter is teleported to a
random evader spawn with a freshly issued pool color. -/
def ghost_collision_step (env : Env) (pid : Nat) (x y : Int) (power : Bool)
    (s : ServerState) (gid : Nat) : ServerState :=
  match s.players.lookup gid with
  | none => s
  | some g =>
    if gid ≠ pid ∧ g.role = Role.ghost ∧ ghostOverlap x y g.x g.y then
      if power then
        let spawns := (currentMap s).ghost_spawns
        let sp := spawns.getD (env.spawnPick gid % spawns.length) (0, 0)
        let s1 := updPlayer s gid fun q => { q with x := sp.1, y := sp.2 }
        updPlayer s1 pid fun q => { q with score := some (q.score.getD 0 + 200) }
      else
        let s1 := updPlayer s pid fun q =>
          { q with lives := some (q.lives.getD 3 - 1) }
        match s1.players.lookup pid with
        | none => s1
        | some p1 =>
          if p1.lives.getD 3 ≤ 0 then
            let s2 := { s1 with pacman_player_id := none }
            let s3 := { s2 with ratingCalls :=
                s2.ratingCalls ++ [⟨p1.name, p1.score.getD 0, false⟩] }
            let s4 := assign_roles env (env.assignPick (gid + 1)) s3
            let spawns := (currentMap s4).ghost_spawns
            let sp := spawns.getD (env.spawnPick gid % spawns.length) (0, 0)
            let cu := get_ghost_color s4.used_ghost_colors (env.colorPick gid)
            let s5 := { s4 with used_ghost_colors := cu.2 }
            updPlayer s5 pid fun q =>
              { q with x := sp.1, y := sp.2, color := some cu.1 }
          else
            let m := currentMap s1
            updPlayer s1 pid fun q =>
              { q with x := m.pacman_spawn.1, y := m.pacman_spawn.2 }
    else s

/-- `check_ghost_collision`: the hunter's `power_mode` is read once before
the loop; the loop runs over the (unchanging) key list while the values
evolve. -/
def check_ghost_collision (env : Env) (s : ServerState) (pid : Nat)
    (x y : Int) : ServerState :=
  match s.players.lookup pid with
  | none => s
  | some p =>
    (s.players.map Prod.fst).foldl (ghost_collision_step env pid x y p.power_mode) s

/-- Respawn pass over the snowflakes: an eaten one is cleared when its
`random.random()` draw exceeds 0.7. Returns the new list and the number
cleared. -/
def dot_respawn_loop (draw : Nat → ℚ) : Nat → List Dot → List Dot × Nat
  | _, [] => ([], 0)
  | i, d :: rest =>
    let r := dot_respawn_loop draw (i + 1) rest
    if d.eaten ∧ draw i > mkRat 7 10 then
      ({ d with eaten := false } :: r.1, r.2 + 1)
    else (d :: r.1, r.2)

/-- Respawn pass over the icicles: an eaten one is cleared when its draw
exceeds 0.5. -/
def pellet_respawn_loop (draw : Nat → ℚ) : Nat → List Pellet → List Pellet × Nat
  | _, [] => ([], 0)
  | i, ic :: rest =>
    let r := pellet_respawn_loop draw (i + 1) rest
    if ic.eaten ∧ draw i > mkRat 1 2 then
      ({ ic with eaten := false } :: r.1, r.2 + 1)
    else (ic :: r.1, r.2)

/-- `check_snowflake_respawn`: when at least `dot_respawn_interval` wall
seconds have passed since the last successful pass, run the stochastic
clearing passes; advance the timer only when something was cleared. -/
def check_snowflake_respawn (env : Env) (s : ServerState) : ServerState :=
  if env.now - s.last_respawn_time ≥ s.dot_respawn_interval then
    let rd := dot_respawn_loop env.dotDraw 0 (currentMap s).dots
    let rp := pellet_respawn_loop env.pelletDraw 0 (currentMap s).power_pellets
    let s1 := setCurrentPellets (setCurrentDots s rd.1) rp.1
    if rd.2 + rp.2 > 0 then { s1 with last_respawn_time := env.now }
    else s1
  else s

/-- `broadcast_game_state`: the respawn check is its only state effect; the
per-recipient sends are external I/O with errors swallowed. -/
def broadcast_game_state (env : Env) (s : ServerState) : ServerState :=
  check_snowflake_respawn env s

/-- Recipients of a voice relay: every other player with voice chat on,
not muted, whose connection is live. -/
def voiceRecipients (s : ServerState) (sender : Nat) : List Nat :=
  (s.players.filter fun q =>
    q.1 ≠ sender ∧ q.2.voice_chat ∧ ¬ q.2.muted ∧
      s.connected_clients.contains q.1).map Prod.fst

/-- `broadcast_voice_audio`: record the relay with its recipient set. -/
def broadcast_voice_audio (s : ServerState) (sender : Nat) (audio : String)
    (seq : Int) : ServerState :=
  { s with sentVoice :=
      s.sentVoice ++ [⟨sender, audio, seq, voiceRecipients s sender⟩] }

/-- Decoded shape of a `position` message payload; absent JSON keys are
`none`. -/
structure PositionPayload where
  posx : Option Int
  posy : Option Int
  pname : Option String
deriving DecidableEq, Repr

/-- One inbound client message after JSON decoding. `malformed` is an
undecodable payload; `noType` decodes but lacks the `type` key; in every
other constructor a `none` field is a missing JSON key. -/
inductive ClientMsg
  | malformed
  | noType
  | position (pos : Option PositionPayload)
  | voiceChat (enabled : Option Bool)
  | voiceAudio (audio : Option String) (seq : Option Int)
  | mutePlayer (target : Option Nat) (muted : Option Bool)
  | changeMap (mapId : Option Int)
  | getLeaderboard
  | getPlayerStats (username : Option String)
  | unknown (typ : String)
deriving DecidableEq, Repr

/-- Result of `handle_message`: normal return, a logged-and-dropped
`json.JSONDecodeError`, or an uncaught exception (`KeyError`) escaping the
handler. -/
inductive Outcome
  | ok (s : ServerState)
  | jsonError (s : ServerState)
  | keyError (s : ServerState)
deriving DecidableEq, Repr

/-- The state carried by an outcome. -/
def Outcome.state : Outcome → ServerState
  | Outcome.ok s => s
  | Outcome.jsonError s => s
  | Outcome.keyError s => s

/-- Body of the `position` branch after the required keys were read: the
optional name update, wall-validated move, the three collision checks for
the hunter, and the power-timer decrement (re-reading `power_mode` after
the collision checks, as line 604 of the source does). `p` is the record
read at `self.players[player_id]` before the move. -/
def position_branch (env : Env) (s : ServerState) (pid : Nat) (p : Player)
    (nx ny : Int) (nm? : Option String) : ServerState :=
  let s1 :=
    match nm? with
    | some nm => updPlayer s pid fun q => { q with name := nm }
    | none => s
  let v := get_valid_position (currentMap s1).walls p.x p.y nx ny
  let s2 := updPlayer s1 pid fun q => { q with x := v.1, y := v.2 }
  let s3 :=
    if p.role = Role.pacman then
      check_ghost_collision env
        (check_icicle_collision
          (check_snowflake_collision s2 pid v.1 v.2) pid v.1 v.2)
        pid v.1 v.2
    else s2
  match s3.players.lookup pid with
  | none => s3
  | some q =>
    if q.power_mode then
      updPlayer s3 pid fun q2 => { q2 with
        power_timer := q2.power_timer - 1
        power_mode :=
          if q2.power_timer - 1 ≤ 0 then false else q2.power_mode }
    else s3

/-- `handle_message`: route one decoded message. Only `json.JSONDecodeError`
is caught; a missing required key raises `KeyError`, which escapes. Every
normally-returning path ends with `broadcast_game_state` (hence the respawn
check). -/
def handle_message (env : Env) (s : ServerState) (pid : Nat)
    (msg : ClientMsg) : Outcome :=
  match msg with
  | ClientMsg.malformed => Outcome.jsonError s
  | ClientMsg.noType => Outcome.keyError s
  | ClientMsg.position pos? =>
    match pos? with
    | none => Outcome.keyError s
    | some pos =>
      match pos.posx, pos.posy with
      | some nx, some ny =>
        match s.players.lookup pid with
        | none => Outcome.keyError s
        | some p =>
          Outcome.ok (broadcast_game_state env
            (position_branch env s pid p nx ny pos.pname))
      | _, _ => Outcome.keyError s
  | ClientMsg.voiceChat enabled? =>
    match enabled? with
    | none => Outcome.keyError s
    | some e =>
      match s.players.lookup pid with
      | none => Outcome.keyError s
      | some _ =>
        Outcome.ok (broadcast_game_state env
          (updPlayer s pid fun p => { p with voice_chat := e }))
  | ClientMsg.voiceAudio audio? seq? =>
    match s.players.lookup pid with
    | none => Outcome.keyError s
    | some p =>
      if p.voice_chat ∧ ¬ p.muted then
        match audio?, seq? with
        | some a, some sq =>
          Outcome.ok (broadcast_game_state env (broadcast_voice_audio s pid a sq))
        | _, _ => Outcome.keyError s
      else Outcome.ok (broadcast_game_state env s)
  | ClientMsg.mutePlayer target? muted? =>
    match target? with
    | none => Outcome.keyError s
    | some t =>
      if (s.players.lookup t).isSome then
        match muted? with
        | none => Outcome.keyError s
        | some m =>
          Outcome.ok (broadcast_game_state env
            (updPlayer s t fun p => { p with muted := m }))
      else Outcome.ok (broadcast_game_state env s)
  | ClientMsg.changeMap mapId? =>
    match mapId? with
    | none => Outcome.keyError s
    | some mid =>
      if 0 ≤ mid ∧ mid < (s.maps.length : Int) then
        let s1 := { s with current_map := mid.toNat }
        let m := currentMap s1
        let s2 := { s1 with players := s1.players.map fun q =>
          if q.2.role = Role.pacman then
            (q.1, { q.2 with x := m.pacman_spawn.1, y := m.pacman_spawn.2 })
          else
            let sp := m.ghost_spawns.getD
              (env.spawnPick q.1 % m.ghost_spawns.length) (0, 0)
            (q.1, { q.2 with x := sp.1, y := sp.2 }) }
        Outcome.ok (broadcast_game_state env s2)
      else Outcome.ok (broadcast_game_state env s)
  | ClientMsg.getLeaderboard => Outcome.ok (broadcast_game_state env s)
  | ClientMsg.getPlayerStats _ => Outcome.ok (broadcast_game_state env s)
  | ClientMsg.unknown _ => Outcome.ok (broadcast_game_state env s)

/-- One turn of the `handle_client` message pump: a normal or
decode-error outcome keeps the connection open; an escaping exception is
caught by the generic handler, the `finally` block runs `cleanup_player`,
and the session ends (the `Bool` is `true` when the connection stays
open). -/
def session_step (env : Env) (s : ServerState) (pid : Nat)
    (msg : ClientMsg) : ServerState × Bool :=
  match handle_message env s pid msg with
  | Outcome.ok s' => (s', true)
  | Outcome.jsonError s' => (s', true)
  | Outcome.keyError s' => (cleanup_player env s' pid, false)

/-- Server state right after `__init__`, with the generated maps and the
start time supplied by the environment. -/
def initState (maps : List GameMap) (t0 : Int) : ServerState :=
  { players := [], pacman_player_id := none, player_counter := 0,
    used_ghost_colors := [], current_map := 0, maps := maps,
    dot_respawn_interval := 30, last_respawn_time := t0,
    connected_clients := [], ratingCalls := [], sentVoice := [] }

/-- One externally-triggered server operation: a new connection, one
message from a live session, or a disconnect. -/
inductive Step : ServerState → ServerState → Prop
  | register (env : Env) (s : ServerState) : Step s (register env s).1
  | dispatch (env : Env) (s : ServerState) (pid : Nat) (msg : ClientMsg)
      (h : (s.players.lookup pid).isSome) :
      Step s (session_step env s pid msg).1
  | unregister (env : Env) (s : ServerState) (pid : Nat) :
      Step s (cleanup_player env s pid)

/-- States reachable from a fresh server. -/
inductive Reachable (maps : List GameMap) (t0 : Int) : ServerState → Prop
  | init : Reachable maps t0 (initState maps t0)
  | step {s s' : ServerState} : Reachable maps t0 s → Step s s' →
      Reachable maps t0 s'

/-! ### Invariant infrastructure -/

/-- The id set of the player dictionary, in insertion order. -/
def keys (s : ServerState) : List Nat := s.players.map Prod.fst

/-- Ids of the evaders whose hitbox overlaps the hunter box at `(x, y)`. -/
def overlappingGhosts (s : ServerState) (pid : Nat) (x y : Int) : List Nat :=
  (s.players.filter fun q =>
    q.1 ≠ pid ∧ q.2.role = Role.ghost ∧ ghostOverlap x y q.2.x q.2.y).map
    Prod.fst

/-- Palette colors not currently marked used (the list `get_ghost_color`
draws from). -/
def availableColors (s : ServerState) : List Color :=
  ghost_colors_available.filter fun c => ¬ s.used_ghost_colors.contains c

/-- Display colors currently held by evaders, in registry order. -/
def ghostColorsL (l : List (Nat × Player)) : List Color :=
  l.filterMap fun q => if q.2.role = Role.ghost then q.2.color else none

/-- Display colors currently held by connected evaders. -/
def ghostColors (s : ServerState) : List Color := ghostColorsL s.players

/-- Every player record has a `color` key (true in every reachable state:
registration always writes one). -/
def AllColored (s : ServerState) : Prop :=
  ∀ q ∈ s.players, q.2.color.isSome = true

/-- Colors held by any player, skipping holders of the fixed hunter color.
This view covers both evaders and a hunter who was handed a pool color on
re-selection. -/
def heldColors (l : List (Nat × Player)) : List Color :=
  l.filterMap fun q =>
    if q.2.color = some pacman_color then none else q.2.color

/-- Color bookkeeping invariant: every player has a color; every held
non-hunter color is a pool color marked used; held colors are pairwise
distinct; the used set has no duplicates; no evader displays the hunter
color. -/
def ColorInv (s : ServerState) : Prop :=
  AllColored s ∧
  (∀ c ∈ heldColors s.players,
    c ∈ s.used_ghost_colors ∧ c ∈ ghost_colors_available) ∧
  (heldColors s.players).Nodup ∧
  s.used_ghost_colors.Nodup ∧
  (∀ q ∈ s.players, q.2.role = Role.ghost → q.2.color ≠ some pacman_color)

/-- The role-loop transformation of one entry, in map form (valid when the
entry already has a color). -/
def assignEntry (pacId : Nat) (q : Nat × Player) : Nat × Player :=
  if q.1 = pacId then
    (q.1, { q.2 with
      role := Role.pacman
      color := some pacman_color
      lives := some (q.2.lives.getD 3)
      score := some (q.2.score.getD 0) })
  else (q.1, { q.2 with role := Role.ghost, color := q.2.color })

/-- Number of players currently holding the hunter role. -/
def countPacman (s : ServerState) : Nat :=
  (s.players.filter fun q => q.2.role = Role.pacman).length

/-- Role bookkeeping: a player is `pacman` exactly when designated, and a
nonempty registry has a designated hunter among its keys. -/
def RolesOK (s : ServerState) : Prop :=
  (∀ q ∈ s.players, q.2.role = Role.pacman ↔ s.pacman_player_id = some q.1) ∧
  (s.players ≠ [] → ∃ pid, s.pacman_player_id = some pid ∧ pid ∈ keys s)

/-- Key bookkeeping: ids are distinct and bounded by the counter. -/
def KeysOK (s : ServerState) : Prop :=
  (keys s).Nodup ∧ ∀ k ∈ keys s, k ≤ s.player_counter

/-- The inductive single-hunter invariant. -/
def Inv (s : ServerState) : Prop := RolesOK s ∧ KeysOK s

/-! ### Concrete fixtures for witnesses and counterexamples -/

/-- A deterministic environment: every random draw picks index 0 / value 0
at wall-clock time 0. -/
def demoEnv : Env :=
  { now := 0, assignPick := fun _ => 0, colorPick := fun _ => 0,
    spawnPick := fun _ => 0, dotDraw := fun _ => 0, pelletDraw := fun _ => 0 }

/-- A small arena: one snowflake sitting on the hunter spawn. -/
def map0 : GameMap :=
  { walls := [], dots := [⟨400, 500, 3, DotType.regular, false⟩],
    power_pellets := [], pacman_spawn := (400, 500),
    ghost_spawns := [(400, 300)] }

/-- A second, empty arena. -/
def map1 : GameMap :=
  { walls := [], dots := [], power_pellets := [],
    pacman_spawn := (100, 100), ghost_spawns := [(800, 600)] }

/-- A two-arena content set. -/
def demoMaps : List GameMap := [map0, map1]

/-- Fresh server over the demo content. -/
def demo0 : ServerState := initState demoMaps 0

/-- One registered connection (player 1, promoted to hunter). -/
def demo1 : ServerState := (register demoEnv demo0).1

/-- A position message driving the hunter onto the demo snowflake. -/
def posMsg : ClientMsg := ClientMsg.position (some ⟨some 400, some 500, none⟩)

/-- Demo state after the hunter consumed map 0's snowflake. -/
def c2s2 : ServerState := (session_step demoEnv demo1 1 posMsg).1

/-- … then switched to arena 1. -/
def c2s3 : ServerState := (session_step demoEnv c2s2 1 (ClientMsg.changeMap (some 1))).1

/-- … then switched back to arena 0. -/
def c2s4 : ServerState := (session_step demoEnv c2s3 1 (ClientMsg.changeMap (some 0))).1

/-- Three players; 1 is the hunter, 2 and 3 are evaders. -/
def c7u3 : ServerState := (register demoEnv (register demoEnv demo1).1).1

/-- Player 2 mutes player 3. -/
def c7u4 : ServerState :=
  (session_step demoEnv c7u3 2 (ClientMsg.mutePlayer (some 3) (some true))).1

/-- Player 3 then sends a voice frame. -/
def c7u5 : ServerState :=
  (session_step demoEnv c7u4 3 (ClientMsg.voiceAudio (some "a") (some 0))).1

/-- The demo environment at wall-clock 30 with all respawn draws at 4/5. -/
def env30 : Env :=
  { demoEnv with
    now := 30
    dotDraw := fun _ => mkRat 4 5
    pelletDraw := fun _ => mkRat 4 5 }

/-- Demo state after a broadcast-carrying dispatch at time 30. -/
def c8s : ServerState :=
  (session_step env30 c2s2 1 ClientMsg.getLeaderboard).1

/-- Declarative form of one snowflake respawn pass: item `i` is cleared
exactly when it was consumed and its uniform draw exceeds 0.7 (an event of
probability 3/10 for a uniform draw on `[0,1)`). -/
def dotRespawnSpec (draw : Nat → ℚ) (l : List Dot) : List Dot :=
  (List.enumFrom 0 l).map fun p =>
    if p.2.eaten ∧ draw p.1 > mkRat 7 10 then { p.2 with eaten := false }
    else p.2

/-- Number of snowflakes cleared by the pass. -/
def dotRespawnCount (draw : Nat → ℚ) (l : List Dot) : Nat :=
  ((List.enumFrom 0 l).filter fun p =>
    p.2.eaten ∧ draw p.1 > mkRat 7 10).length

/-- Declarative form of one icicle respawn pass: cleared exactly when
consumed and the draw exceeds 0.5 (probability 1/2). -/
def pelletRespawnSpec (draw : Nat → ℚ) (l : List Pellet) : List Pellet :=
  (List.enumFrom 0 l).map fun p =>
    if p.2.eaten ∧ draw p.1 > mkRat 1 2 then { p.2 with eaten := false }
    else p.2

/-- Number of icicles cleared by the pass. -/
def pelletRespawnCount (draw : Nat → ℚ) (l : List Pellet) : Nat :=
  ((List.enumFrom 0 l).filter fun p =>
    p.2.eaten ∧ draw p.1 > mkRat 1 2).length

/-- Two players; 1 is the hunter standing on the snowflake, 2 the evader
registered at the same hunter spawn. -/
def c3t2 : ServerState := (register demoEnv demo1).1

/-- First overlap: hunter drops to 2 lives. -/
def c3t3 : ServerState := (session_step demoEnv c3t2 1 posMsg).1

/-- Second overlap: 1 life. -/
def c3t4 : ServerState := (session_step demoEnv c3t3 1 posMsg).1

/-- Third overlap: hunter dies and is immediately re-selected. -/
def c3t5 : ServerState := (session_step demoEnv c3t4 1 posMsg).1

/-- An environment whose exhausted-pool fallback draw lands on palette
index 1 for the eighth registrant. -/
def env4 : Env := { demoEnv with colorPick := fun pid => if pid = 8 then 1 else 0 }

/-- Eight registrations: the pool holds seven colors, so the eighth player
receives a fallback duplicate. -/
def c4w : ServerState :=
  (register env4 (register env4 (register env4 (register env4 (register env4
    (register env4 (register env4 (register env4 demo0).1).1).1).1).1).1).1).1

/-- ... then player 3 disconnects, freeing its pool color. -/
def c4w2 : ServerState := cleanup_player env4 c4w 3

/-- A concrete two-player state: hunter 1 on its last life at (400, 500),
evader 2 adjacent at (410, 500) holding the first pool color. -/
def c6s : ServerState :=
  { players := [
      (1, { x := 400, y := 500, role := Role.pacman,
            color := some pacman_color, score := some 70, power_mode := false,
            power_timer := 0, lives := some 1, name := "Player1",
            voice_chat := true, muted := false }),
      (2, { x := 410, y := 500, role := Role.ghost,
            color := some (173, 216, 230), score := none, power_mode := false,
            power_timer := 0, lives := none, name := "Player2",
            voice_chat := true, muted := false })]
    pacman_player_id := some 1
    player_counter := 2
    used_ghost_colors := [(173, 216, 230)]
    current_map := 0
    maps := demoMaps
    dot_respawn_interval := 30
    last_respawn_time := 0
    connected_clients := [1, 2]
    ratingCalls := []
    sentVoice := [] }

/-- The tail of the hunter-death branch of the ghost-collision loop,
starting from the state in which the hunter's life count has already been
decremented (`s1`) and its decremented record is `p1`: vacate the
designation, record the loss with the rating collaborator, reassign roles,
and teleport the former hunter to a random evader spawn with a freshly
issued color. -/
def hunter_death (env : Env) (s1 : ServerState) (pid gid : Nat)
    (p1 : Player) : ServerState :=
  let s3 := { s1 with
    pacman_player_id := none
    ratingCalls := s1.ratingCalls ++ [⟨p1.name, p1.score.getD 0, false⟩] }
  let s4 := assign_roles env (env.assignPick (gid + 1)) s3
  let spawns := (currentMap s4).ghost_spawns
  let sp := spawns.getD (env.spawnPick gid % spawns.length) (0, 0)
  let cu := get_ghost_color s4.used_ghost_colors (env.colorPick gid)
  let s5 := { s4 with used_ghost_colors := cu.2 }
  updPlayer s5 pid fun q => { q with x := sp.1, y := sp.2, color := some cu.1 }

theorem getD_mod_mem {α : Type} {l : List α} (hl : l ≠ []) (k : Nat) (d : α) :
    l.getD (k % l.length) d ∈ l := by
  have hlen : 0 < l.length := List.length_pos.mpr hl
  have hk : k % l.length < l.length := Nat.mod_lt _ hlen
  rw [List.getD_eq_getElem?_getD, List.getElem?_eq_getElem hk]
  simp only [Option.getD_some]
  exact List.getElem_mem hk

theorem keys_updatePlayer (ps : List (Nat × Player)) (pid : Nat)
    (f : Player → Player) :
    (updatePlayer ps pid f).map Prod.fst = ps.map Prod.fst := by
  induction ps with
  | nil => rfl
  | cons q rest ih =>
    by_cases h : q.1 = pid <;> simp [updatePlayer, h] at ih ⊢ <;> exact ih

theorem mem_updatePlayer {ps : List (Nat × Player)} {pid : Nat}
    {f : Player → Player} {q : Nat × Player} (hq : q ∈ updatePlayer ps pid f) :
    ∃ q0 ∈ ps, q.1 = q0.1 ∧ (q.2 = q0.2 ∨ q.2 = f q0.2) := by
  induction ps with
  | nil => simp [updatePlayer] at hq
  | cons r rest ih =>
    simp only [updatePlayer, List.map_cons, List.mem_cons] at hq
    rcases hq with hq | hq
    · by_cases h : r.1 = pid
      · simp only [h, if_pos] at hq
        exact ⟨r, by simp, by rw [hq, h], Or.inr (by rw [hq])⟩
      · simp only [h, if_neg, not_false_iff] at hq
        exact ⟨r, by simp, by rw [hq], Or.inl (by rw [hq])⟩
    · obtain ⟨q0, hq0, h1, h2⟩ := ih hq
      exact ⟨q0, by simp [hq0], h1, h2⟩

theorem RolesOK_updPlayer {s : ServerState} {pid : Nat} {f : Player → Player}
    (h : RolesOK s) (hf : ∀ p, (f p).role = p.role) :
    RolesOK (updPlayer s pid f) := by
  obtain ⟨h1, h2⟩ := h
  constructor
  · intro q hq
    obtain ⟨q0, hq0, hfst, hsnd⟩ := mem_updatePlayer hq
    have := h1 q0 hq0
    rcases hsnd with h | h <;> rw [hfst, h] <;>
      simpa [updPlayer, hf] using this
  · intro hne
    have : s.players ≠ [] := by
      intro h0
      apply hne
      simp [updPlayer, h0, updatePlayer]
    obtain ⟨pid0, hp0, hm⟩ := h2 this
    exact ⟨pid0, hp0, by simpa [keys, updPlayer, keys_updatePlayer] using hm⟩

theorem KeysOK_updPlayer {s : ServerState} {pid : Nat} {f : Player → Player}
    (h : KeysOK s) : KeysOK (updPlayer s pid f) := by
  obtain ⟨h1, h2⟩ := h
  constructor
  · simpa [keys, updPlayer, keys_updatePlayer] using h1
  · intro k hk
    exact h2 k (by simpa [keys, updPlayer, keys_updatePlayer] using hk)

/-- `RolesOK` only reads `players` and `pacman_player_id`. -/
theorem RolesOK_congr {s s' : ServerState} (hp : s'.players = s.players)
    (hi : s'.pacman_player_id = s.pacman_player_id) (h : RolesOK s) :
    RolesOK s' := by
  obtain ⟨h1, h2⟩ := h
  constructor
  · intro q hq
    rw [hi]
    exact h1 q (hp ▸ hq)
  · intro hne
    obtain ⟨pid, ha, hb⟩ := h2 (hp ▸ hne)
    exact ⟨pid, by rw [hi, ha], by simpa [keys, hp] using hb⟩

/-- `KeysOK` only reads `players` and `player_counter`. -/
theorem KeysOK_congr {s s' : ServerState} (hp : s'.players = s.players)
    (hc : s'.player_counter = s.player_counter) (h : KeysOK s) :
    KeysOK s' := by
  obtain ⟨h1, h2⟩ := h
  constructor
  · simpa [keys, hp] using h1
  · intro k hk
    rw [hc]
    exact h2 k (by simpa [keys, hp] using hk)

theorem RolesOK_of_empty {s : ServerState} (h : s.players = []) : RolesOK s :=
  ⟨by simp [h], by simp [h]⟩

theorem assign_loop_keys (env : Env) (pacId : Nat) :
    ∀ (l : List (Nat × Player)) (used : List Color),
      (assign_loop env pacId l used).1.map Prod.fst = l.map Prod.fst := by
  intro l
  induction l with
  | nil => intro used; rfl
  | cons q rest ih =>
    intro used
    obtain ⟨id, p⟩ := q
    by_cases h : id = pacId
    · simp [assign_loop, h, ih]
    · cases hc : p.color <;> simp [assign_loop, h, hc, ih]

theorem assign_loop_role (env : Env) (pacId : Nat) :
    ∀ (l : List (Nat × Player)) (used : List Color),
      ∀ q ∈ (assign_loop env pacId l used).1,
        q.2.role = Role.pacman ↔ q.1 = pacId := by
  intro l
  induction l with
  | nil => intro used q hq; simp [assign_loop] at hq
  | cons r rest ih =>
    intro used q hq
    obtain ⟨id, p⟩ := r
    by_cases h : id = pacId
    · simp only [assign_loop, h, if_pos, List.mem_cons] at hq
      rcases hq with hq | hq
      · rw [hq]; simp [h]
      · exact ih used q hq
    · cases hc : p.color with
      | some c =>
        simp only [assign_loop, h, if_neg, not_false_iff, hc, List.mem_cons] at hq
        rcases hq with hq | hq
        · rw [hq]; simp [h]
        · exact ih _ q hq
      | none =>
        simp only [assign_loop, h, if_neg, not_false_iff, hc, List.mem_cons] at hq
        rcases hq with hq | hq
        · rw [hq]; simp [h]
        · exact ih _ q hq

theorem assign_roles_players_nil {env : Env} {k : Nat} {s : ServerState}
    (h : s.players = []) : assign_roles env k s = s := by
  simp [assign_roles, h]

/-- The hunter pick of `assign_roles` is always one of the player ids. -/
theorem pick_mem (k : Nat) (pac : Option Nat) {ids : List Nat}
    (hne : ids ≠ []) :
    (match pac with
     | some pid =>
       if ids.contains pid then pid
       else ids.getD (k % ids.length) 0
     | none => ids.getD (k % ids.length) 0) ∈ ids := by
  cases pac with
  | none => exact getD_mod_mem hne _ _
  | some pid =>
    by_cases hc : pid ∈ ids
    · simp [hc]
    · simpa [hc] using getD_mod_mem hne k 0

/-- The hunter pick is always one of the current player ids. -/
theorem pick_pacman_mem (k : Nat) {s : ServerState} (hp : s.players ≠ []) :
    pick_pacman k s ∈ s.players.map Prod.fst := by
  rw [pick_pacman]
  exact pick_mem k s.pacman_player_id (by simpa using hp)

/-- `assign_roles` re-establishes the role bookkeeping outright. -/
theorem RolesOK_assign_roles (env : Env) (k : Nat) (s : ServerState) :
    RolesOK (assign_roles env k s) := by
  by_cases h : s.players = []
  · rw [assign_roles_players_nil h]
    exact RolesOK_of_empty h
  · have hmem := pick_pacman_mem k h
    rw [assign_roles]
    simp only [h, if_neg, not_false_iff]
    constructor
    · intro q hq
      simp only at hq
      have hrole := assign_loop_role env _ s.players s.used_ghost_colors q hq
      rw [hrole]
      simp only [Option.some_inj]
      exact eq_comm
    · intro _
      exact ⟨_, rfl, by simpa [keys, assign_loop_keys] using hmem⟩

theorem KeysOK_assign_roles {env : Env} {k : Nat} {s : ServerState}
    (h : KeysOK s) : KeysOK (assign_roles env k s) := by
  by_cases hp : s.players = []
  · rwa [assign_roles_players_nil hp]
  · obtain ⟨h1, h2⟩ := h
    rw [assign_roles]
    simp only [hp, if_neg, not_false_iff]
    constructor
    · simpa [keys, assign_loop_keys] using h1
    · intro k hk
      exact h2 k (by simpa [keys, assign_loop_keys] using hk)

theorem Inv_assign_of_KeysOK (env : Env) (k : Nat) (s : ServerState)
    (h : KeysOK s) : Inv (assign_roles env k s) :=
  ⟨RolesOK_assign_roles env k s, KeysOK_assign_roles h⟩

/-- Any state whose players are the old ones minus one id keeps `KeysOK`. -/
theorem KeysOK_erase {s : ServerState} (pid : Nat) (h : KeysOK s)
    (t : ServerState) (hp : t.players = s.players.filter (fun q => q.1 ≠ pid))
    (hc : t.player_counter = s.player_counter) : KeysOK t := by
  obtain ⟨h1, h2⟩ := h
  constructor
  · rw [keys, hp]
    exact h1.sublist ((List.filter_sublist s.players).map Prod.fst)
  · intro k hk
    rw [keys, hp] at hk
    rw [hc]
    obtain ⟨q, hq, hqk⟩ := List.mem_map.mp hk
    exact hqk ▸ h2 q.1 (List.mem_map_of_mem Prod.fst (List.mem_of_mem_filter hq))

theorem Inv_cleanup (env : Env) (s : ServerState) (pid : Nat) (h : Inv s) :
    Inv (cleanup_player env s pid) := by
  obtain ⟨hr, hk⟩ := h
  rcases hl : s.players.lookup pid with _ | p
  · simp only [cleanup_player, hl]
    exact ⟨hr, hk⟩
  · cases hcol : p.color <;>
      [skip; skip] <;>
    · simp only [cleanup_player, hl, hcol]
      split_ifs <;>
        exact Inv_assign_of_KeysOK _ _ _ (KeysOK_erase pid hk _ rfl rfl)

/-- Appending a fresh id (the bumped counter) keeps `KeysOK`. -/
theorem KeysOK_append {s : ServerState} (h : KeysOK s) (p : Player)
    (t : ServerState)
    (hp : t.players = s.players ++ [(s.player_counter + 1, p)])
    (hc : t.player_counter = s.player_counter + 1) : KeysOK t := by
  obtain ⟨h1, h2⟩ := h
  constructor
  · rw [keys, hp, List.map_append]
    refine List.Nodup.append h1 (List.nodup_singleton _) ?_
    intro a ha hb
    simp only [List.map_cons, List.map_nil, List.mem_singleton] at hb
    have := h2 a ha
    omega
  · intro k hk
    rw [keys, hp, List.map_append] at hk
    rw [hc]
    rcases List.mem_append.mp hk with hk | hk
    · exact Nat.le_succ_of_le (h2 k hk)
    · simp only [List.map_cons, List.map_nil, List.mem_singleton] at hk
      omega

theorem Inv_register (env : Env) (s : ServerState) (h : KeysOK s) :
    Inv (register env s).1 := by
  exact Inv_assign_of_KeysOK _ _ _ (KeysOK_append h _ _ rfl rfl)

theorem Inv_updPlayer {s : ServerState} {pid : Nat} {f : Player → Player}
    (hf : ∀ p, (f p).role = p.role) (h : Inv s) : Inv (updPlayer s pid f) :=
  ⟨RolesOK_updPlayer h.1 hf, KeysOK_updPlayer h.2⟩

theorem Inv_congr {s s' : ServerState} (hp : s'.players = s.players)
    (hi : s'.pacman_player_id = s.pacman_player_id)
    (hc : s'.player_counter = s.player_counter) (h : Inv s) : Inv s' :=
  ⟨RolesOK_congr hp hi h.1, KeysOK_congr hp hc h.2⟩

theorem Inv_respawn (env : Env) (s : ServerState) (h : Inv s) :
    Inv (check_snowflake_respawn env s) := by
  simp only [check_snowflake_respawn]
  split_ifs <;> exact Inv_congr rfl rfl rfl h

theorem Inv_broadcast (env : Env) (s : ServerState) (h : Inv s) :
    Inv (broadcast_game_state env s) :=
  Inv_respawn env s h

theorem Inv_snowflake (s : ServerState) (pid : Nat) (x y : Int) (h : Inv s) :
    Inv (check_snowflake_collision s pid x y) :=
  Inv_updPlayer (fun _ => rfl) (Inv_congr rfl rfl rfl h)

theorem Inv_icicle (s : ServerState) (pid : Nat) (x y : Int) (h : Inv s) :
    Inv (check_icicle_collision s pid x y) := by
  rw [check_icicle_collision]
  split_ifs
  · exact Inv_updPlayer (fun _ => rfl) (Inv_congr rfl rfl rfl h)
  · exact Inv_congr rfl rfl rfl h

theorem Inv_ghost_step (env : Env) (pid : Nat) (x y : Int) (power : Bool)
    (s : ServerState) (gid : Nat) (h : Inv s) :
    Inv (ghost_collision_step env pid x y power s gid) := by
  rcases hg : s.players.lookup gid with _ | g
  · simpa only [ghost_collision_step, hg] using h
  · simp only [ghost_collision_step, hg]
    split_ifs with ht hp
    · exact Inv_updPlayer (fun _ => rfl)
        (Inv_updPlayer (fun _ => rfl) h)
    · rcases hp1 : (updPlayer s pid fun q =>
          { q with lives := some (q.lives.getD 3 - 1) }).players.lookup pid
          with _ | p1
      · simp only [updPlayer] at hp1
        simp only [hp1]
        exact Inv_updPlayer (fun _ => rfl) h
      · simp only [updPlayer] at hp1
        simp only [hp1]
        split_ifs with hl0
        · refine Inv_updPlayer (fun q => ?_) ?_
          · rfl
          · refine Inv_congr rfl rfl rfl ?_
            refine Inv_assign_of_KeysOK _ _ _ ?_
            exact KeysOK_congr
              (s := updPlayer s pid fun q =>
                { q with lives := some (q.lives.getD 3 - 1) })
              rfl rfl (KeysOK_updPlayer h.2)
        · exact Inv_updPlayer (fun _ => rfl)
            (Inv_updPlayer (fun _ => rfl) h)
    · exact h

theorem Inv_ghost_loop (env : Env) (pid : Nat) (x y : Int) (power : Bool) :
    ∀ (ids : List Nat) (s : ServerState), Inv s →
      Inv (ids.foldl (ghost_collision_step env pid x y power) s)
  | [], _, h => h
  | gid :: rest, s, h =>
    Inv_ghost_loop env pid x y power rest _
      (Inv_ghost_step env pid x y power s gid h)

theorem Inv_ghost_coll (env : Env) (s : ServerState) (pid : Nat) (x y : Int)
    (h : Inv s) : Inv (check_ghost_collision env s pid x y) := by
  rcases hl : s.players.lookup pid with _ | p
  · simpa only [check_ghost_collision, hl] using h
  · simp only [check_ghost_collision, hl]
    exact Inv_ghost_loop env pid x y p.power_mode _ s h

theorem keys_map_of_fst {g : Nat × Player → Nat × Player}
    (hkey : ∀ q, (g q).1 = q.1) (l : List (Nat × Player)) :
    (l.map g).map Prod.fst = l.map Prod.fst := by
  induction l with
  | nil => rfl
  | cons q rest ih => simp [hkey, ih]

/-- A pointwise, key- and role-preserving rewrite of the player dictionary
keeps the invariant. -/
theorem Inv_mapPlayers {s t : ServerState} {g : Nat × Player → Nat × Player}
    (hp : t.players = s.players.map g)
    (hkey : ∀ q, (g q).1 = q.1) (hrole : ∀ q, (g q).2.role = q.2.role)
    (hi : t.pacman_player_id = s.pacman_player_id)
    (hc : t.player_counter = s.player_counter) (h : Inv s) : Inv t := by
  obtain ⟨⟨h1, h2⟩, ⟨h3, h4⟩⟩ := h
  refine ⟨⟨?_, ?_⟩, ?_, ?_⟩
  · intro q hq
    rw [hp] at hq
    obtain ⟨q0, hq0, rfl⟩ := List.mem_map.mp hq
    rw [hi, hrole, hkey]
    exact h1 q0 hq0
  · intro hne
    rw [hp] at hne
    have hne' : s.players ≠ [] := by simpa using hne
    obtain ⟨pid, ha, hb⟩ := h2 hne'
    exact ⟨pid, by rw [hi, ha], by rw [keys, hp, keys_map_of_fst hkey]; exact hb⟩
  · rw [keys, hp, keys_map_of_fst hkey]
    exact h3
  · intro k hk
    rw [keys, hp, keys_map_of_fst hkey] at hk
    rw [hc]
    exact h4 k hk

theorem Inv_position_branch (env : Env) (s : ServerState) (pid : Nat)
    (p : Player) (nx ny : Int) (nm? : Option String) (h : Inv s) :
    Inv (position_branch env s pid p nx ny nm?) := by
  simp only [position_branch]
  have h1 : Inv (match nm? with
      | some nm => updPlayer s pid fun q => { q with name := nm }
      | none => s) := by
    rcases nm? with _ | nm
    · exact h
    · exact Inv_updPlayer (fun _ => rfl) h
  generalize (match nm? with
      | some nm => updPlayer s pid fun q => { q with name := nm }
      | none => s) = s1 at h1 ⊢
  have h2 : Inv (updPlayer s1 pid fun q =>
      { q with
        x := (get_valid_position (currentMap s1).walls p.x p.y nx ny).1
        y := (get_valid_position (currentMap s1).walls p.x p.y nx ny).2 }) :=
    Inv_updPlayer (fun _ => rfl) h1
  generalize (updPlayer s1 pid fun q =>
      { q with
        x := (get_valid_position (currentMap s1).walls p.x p.y nx ny).1
        y := (get_valid_position (currentMap s1).walls p.x p.y nx ny).2 })
      = s2 at h2 ⊢
  have h3 : Inv (if p.role = Role.pacman then
      check_ghost_collision env
        (check_icicle_collision
          (check_snowflake_collision s2 pid
            (get_valid_position (currentMap s1).walls p.x p.y nx ny).1
            (get_valid_position (currentMap s1).walls p.x p.y nx ny).2)
          pid (get_valid_position (currentMap s1).walls p.x p.y nx ny).1
          (get_valid_position (currentMap s1).walls p.x p.y nx ny).2)
        pid (get_valid_position (currentMap s1).walls p.x p.y nx ny).1
        (get_valid_position (currentMap s1).walls p.x p.y nx ny).2
    else s2) := by
    split_ifs
    · exact Inv_ghost_coll _ _ _ _ _
        (Inv_icicle _ _ _ _ (Inv_snowflake _ _ _ _ h2))
    · exact h2
  generalize (if p.role = Role.pacman then
      check_ghost_collision env
        (check_icicle_collision
          (check_snowflake_collision s2 pid
            (get_valid_position (currentMap s1).walls p.x p.y nx ny).1
            (get_valid_position (currentMap s1).walls p.x p.y nx ny).2)
          pid (get_valid_position (currentMap s1).walls p.x p.y nx ny).1
          (get_valid_position (currentMap s1).walls p.x p.y nx ny).2)
        pid (get_valid_position (currentMap s1).walls p.x p.y nx ny).1
        (get_valid_position (currentMap s1).walls p.x p.y nx ny).2
    else s2) = s3 at h3 ⊢
  rcases hq : s3.players.lookup pid with _ | q
  · simp only [hq]
    exact h3
  · simp only [hq]
    split_ifs
    · exact Inv_updPlayer (fun _ => rfl) h3
    · exact h3

theorem Inv_handle (env : Env) (s : ServerState) (pid : Nat) (msg : ClientMsg)
    (h : Inv s) : Inv (handle_message env s pid msg).state := by
  cases msg with
  | malformed => exact h
  | noType => exact h
  | position pos? =>
    rcases pos? with _ | pos
    · exact h
    · rcases hx : pos.posx with _ | nx
      · simpa only [handle_message, hx, Outcome.state] using h
      · rcases hy : pos.posy with _ | ny
        · simpa only [handle_message, hx, hy, Outcome.state] using h
        · rcases hl : s.players.lookup pid with _ | p
          · simpa only [handle_message, hx, hy, hl, Outcome.state] using h
          · simp only [handle_message, hx, hy, hl, Outcome.state]
            exact Inv_broadcast _ _ (Inv_position_branch env s pid p nx ny _ h)
  | voiceChat enabled? =>
    rcases enabled? with _ | e
    · exact h
    · rcases hl : s.players.lookup pid with _ | p
      · simpa only [handle_message, hl, Outcome.state] using h
      · simp only [handle_message, hl, Outcome.state]
        exact Inv_broadcast _ _ (Inv_updPlayer (fun _ => rfl) h)
  | voiceAudio audio? seq? =>
    rcases hl : s.players.lookup pid with _ | p
    · simpa only [handle_message, hl, Outcome.state] using h
    · simp only [handle_message, hl, Outcome.state]
      split_ifs
      · rcases audio? with _ | a <;> rcases seq? with _ | sq
        · exact h
        · exact h
        · exact h
        · exact Inv_broadcast _ _ (Inv_congr rfl rfl rfl h)
      · exact Inv_broadcast _ _ h
  | mutePlayer target? muted? =>
    rcases target? with _ | t
    · exact h
    · simp only [handle_message, Outcome.state]
      split_ifs
      · rcases muted? with _ | m
        · exact h
        · exact Inv_broadcast _ _ (Inv_updPlayer (fun _ => rfl) h)
      · exact Inv_broadcast _ _ h
  | changeMap mapId? =>
    rcases mapId? with _ | mid
    · exact h
    · simp only [handle_message, Outcome.state]
      split_ifs
      · exact Inv_broadcast _ _
          (Inv_mapPlayers rfl (fun q => by split_ifs <;> rfl)
            (fun q => by split_ifs <;> rfl) rfl rfl
            (Inv_congr rfl rfl rfl h))
      · exact Inv_broadcast _ _ h
  | getLeaderboard => exact Inv_broadcast _ _ h
  | getPlayerStats u => exact Inv_broadcast _ _ h
  | unknown t => exact Inv_broadcast _ _ h

theorem Inv_session (env : Env) (s : ServerState) (pid : Nat)
    (msg : ClientMsg) (h : Inv s) : Inv (session_step env s pid msg).1 := by
  have hh := Inv_handle env s pid msg h
  rw [session_step]
  rcases ho : handle_message env s pid msg with t | t | t <;> rw [ho] at hh
  · exact hh
  · exact hh
  · exact Inv_cleanup env t pid hh

theorem Inv_step {s s' : ServerState} (hst : Step s s') (h : Inv s) :
    Inv s' := by
  cases hst with
  | register env s => exact Inv_register env s h.2
  | dispatch env s pid msg hmem => exact Inv_session env s pid msg h
  | unregister env s pid => exact Inv_cleanup env s pid h

theorem Inv_init (maps : List GameMap) (t0 : Int) : Inv (initState maps t0) := by
  refine ⟨RolesOK_of_empty rfl, ?_, ?_⟩ <;> simp [keys, initState]

theorem Inv_reachable {maps : List GameMap} {t0 : Int} {s : ServerState}
    (h : Reachable maps t0 s) : Inv s := by
  induction h with
  | init => exact Inv_init maps t0
  | step hr hst ih => exact Inv_step hst ih

theorem filter_pac_length :
    ∀ (l : List (Nat × Player)) (pac : Nat), (l.map Prod.fst).Nodup →
      pac ∈ l.map Prod.fst →
      (∀ q ∈ l, q.2.role = Role.pacman ↔ pac = q.1) →
      (l.filter fun q => q.2.role = Role.pacman).length = 1 := by
  intro l pac hnd hmem hiff
  induction l with
  | nil => simp at hmem
  | cons q rest ih =>
    simp only [List.map_cons, List.nodup_cons] at hnd
    obtain ⟨hq1, hnd2⟩ := hnd
    by_cases he : pac = q.1
    · have hrole : q.2.role = Role.pacman := (hiff q (by simp)).mpr he
      have hrest : rest.filter (fun q => decide (q.2.role = Role.pacman)) = [] := by
        rw [List.filter_eq_nil_iff]
        intro r hr hc
        simp only [decide_eq_true_eq] at hc
        have hre : pac = r.1 := (hiff r (by simp [hr])).mp hc
        exact hq1 (he ▸ hre ▸ List.mem_map_of_mem Prod.fst hr)
      rw [List.filter_cons]
      simp [hrole, hrest]
    · have hrole : ¬ q.2.role = Role.pacman := fun hc =>
        he ((hiff q (by simp)).mp hc)
      have hmem2 : pac ∈ rest.map Prod.fst := by
        rcases List.mem_cons.mp hmem with hm | hm
        · exact absurd hm he
        · exact hm
      rw [List.filter_cons]
      simp only [hrole, decide_eq_true_eq, if_neg, not_false_iff]
      exact ih hnd2 hmem2 (fun r hr => hiff r (by simp [hr]))

theorem countPacman_eq {s : ServerState} (h : Inv s) :
    countPacman s = if s.players.isEmpty then 0 else 1 := by
  obtain ⟨⟨h1, h2⟩, h3, _⟩ := h
  by_cases hp : s.players = []
  · simp [countPacman, hp]
  · obtain ⟨pac, hpac, hmem⟩ := h2 hp
    rw [if_neg (by simpa [List.isEmpty_iff] using hp)]
    refine filter_pac_length s.players pac h3 hmem ?_
    intro q hq
    rw [h1 q hq, hpac]
    constructor
    · intro hqe
      exact (Option.some_inj.mp hqe)
    · intro hqe
      rw [hqe]

/-! ### Lookup and color-pool lemmas -/

theorem assign_loop_length (env : Env) (pacId : Nat)
    (l : List (Nat × Player)) (used : List Color) :
    (assign_loop env pacId l used).1.length = l.length := by
  have h := congrArg List.length (assign_loop_keys env pacId l used)
  simpa using h

theorem assign_loop_ne_nil (env : Env) (pacId : Nat)
    {l : List (Nat × Player)} (used : List Color) (hl : l ≠ []) :
    (assign_loop env pacId l used).1 ≠ [] := by
  intro h0
  apply hl
  have := assign_loop_length env pacId l used
  rw [h0] at this
  exact List.eq_nil_of_length_eq_zero this.symm

/-- A second pass of the role loop over its own output changes nothing:
the hunter entry already carries the hunter color and initialized
lives/score, and every evader already carries a color. -/
theorem assign_loop_idem (env1 env2 : Env) (pacId : Nat) :
    ∀ (l : List (Nat × Player)) (used : List Color),
      assign_loop env2 pacId (assign_loop env1 pacId l used).1
        (assign_loop env1 pacId l used).2 = assign_loop env1 pacId l used := by
  intro l
  induction l with
  | nil => intro used; rfl
  | cons q rest ih =>
    intro used
    obtain ⟨id, p⟩ := q
    by_cases h : id = pacId
    · simp [assign_loop, h, ih]
    · cases hc : p.color with
      | some c => simp [assign_loop, h, hc, ih]
      | none => simp [assign_loop, h, hc, ih]

theorem assign_roles_eq (env : Env) (k : Nat) (s : ServerState)
    (hp : s.players ≠ []) :
    assign_roles env k s =
      { s with
        players := (assign_loop env (pick_pacman k s) s.players
          s.used_ghost_colors).1
        used_ghost_colors := (assign_loop env (pick_pacman k s) s.players
          s.used_ghost_colors).2
        pacman_player_id := some (pick_pacman k s) } := by
  rw [assign_roles]
  simp only [hp, if_neg, not_false_iff]

/-- With no membership change, the second reassignment keeps the same
hunter designation. -/
theorem pick_pacman_second (env1 : Env) (k1 k2 : Nat) (s : ServerState)
    (hp : s.players ≠ []) :
    pick_pacman k2 (assign_roles env1 k1 s) = pick_pacman k1 s := by
  rw [assign_roles_eq env1 k1 s hp]
  have hm : pick_pacman k1 s ∈
      (assign_loop env1 (pick_pacman k1 s) s.players
        s.used_ghost_colors).1.map Prod.fst := by
    rw [assign_loop_keys]
    exact pick_pacman_mem k1 hp
  rw [pick_pacman]
  simp [hm]

theorem updatePlayer_cons (k : Nat) (v : Player) (rest : List (Nat × Player))
    (pid : Nat) (f : Player → Player) :
    updatePlayer ((k, v) :: rest) pid f =
      (if k = pid then (k, f v) else (k, v)) :: updatePlayer rest pid f := by
  by_cases h : k = pid <;> simp [updatePlayer, h]

theorem lookup_updatePlayer_self (ps : List (Nat × Player)) (pid : Nat)
    (f : Player → Player) :
    (updatePlayer ps pid f).lookup pid = (ps.lookup pid).map f := by
  induction ps with
  | nil => rfl
  | cons q rest ih =>
    obtain ⟨k, v⟩ := q
    rw [updatePlayer_cons]
    by_cases h : k = pid
    · rw [if_pos h]
      have hb : (pid == k) = true := by simp [h.symm]
      simp only [List.lookup, hb]
      rfl
    · rw [if_neg h]
      have hb : (pid == k) = false :=
        beq_eq_false_iff_ne.mpr fun he => h he.symm
      simp only [List.lookup, hb]
      exact ih

theorem lookup_updatePlayer_ne (ps : List (Nat × Player)) (pid : Nat)
    (f : Player → Player) (id : Nat) (hne : id ≠ pid) :
    (updatePlayer ps pid f).lookup id = ps.lookup id := by
  induction ps with
  | nil => rfl
  | cons q rest ih =>
    obtain ⟨k, v⟩ := q
    rw [updatePlayer_cons]
    by_cases h : k = pid
    · rw [if_pos h]
      have hb : (id == k) = false :=
        beq_eq_false_iff_ne.mpr fun he => hne (he.trans h)
      simp only [List.lookup, hb]
      exact ih
    · rw [if_neg h]
      cases hk : id == k
      · simp only [List.lookup, hk]
        exact ih
      · simp only [List.lookup, hk]

theorem lookup_mem {ps : List (Nat × Player)} {id : Nat} {p : Player}
    (h : ps.lookup id = some p) : (id, p) ∈ ps := by
  induction ps with
  | nil => simp [List.lookup] at h
  | cons q rest ih =>
    obtain ⟨k, v⟩ := q
    simp only [List.lookup] at h
    cases hk : id == k
    · rw [hk] at h
      exact List.mem_cons_of_mem _ (ih h)
    · rw [hk] at h
      simp only [Option.some_inj] at h
      have hkid : id = k := by simpa using hk
      simp [hkid, h]

theorem get_ghost_color_fresh {used : List Color} (k : Nat)
    (h : ghost_colors_available.filter (fun c => ¬ used.contains c) ≠ []) :
    (get_ghost_color used k).1 ∈ ghost_colors_available ∧
    (get_ghost_color used k).1 ∉ used ∧
    (get_ghost_color used k).2 = used.insert (get_ghost_color used k).1 := by
  rcases hf : ghost_colors_available.filter (fun c => ¬ used.contains c)
    with _ | ⟨c, rest⟩
  · exact absurd hf h
  · have hc : c ∈ ghost_colors_available.filter (fun c => ¬ used.contains c) := by
      rw [hf]
      exact List.mem_cons_self _ _
    obtain ⟨hmem, hcon⟩ := List.mem_filter.mp hc
    rw [get_ghost_color, hf]
    refine ⟨hmem, ?_, rfl⟩
    simpa using hcon

theorem assign_loop_eq_of_some (env : Env) (pacId : Nat) :
    ∀ (l : List (Nat × Player)) (used : List Color),
      (∀ q ∈ l, q.2.color.isSome = true) →
      assign_loop env pacId l used = (l.map (assignEntry pacId), used) := by
  intro l
  induction l with
  | nil => intro used _; rfl
  | cons q rest ih =>
    intro used hall
    obtain ⟨id, p⟩ := q
    have hrest : ∀ q ∈ rest, q.2.color.isSome = true := fun q hq =>
      hall q (List.mem_cons_of_mem _ hq)
    have hps : p.color.isSome = true := hall (id, p) (List.mem_cons_self _ _)
    by_cases h : id = pacId
    · simp [assign_loop, h, ih used hrest, assignEntry]
    · cases hc : p.color with
      | none => rw [hc] at hps; simp at hps
      | some c =>
        simp [assign_loop, h, hc, ih used hrest, assignEntry]

theorem assign_roles_map (env : Env) (k : Nat) (s : ServerState)
    (hp : s.players ≠ []) (hall : AllColored s) :
    assign_roles env k s =
      { s with
        players := s.players.map (assignEntry (pick_pacman k s))
        pacman_player_id := some (pick_pacman k s) } := by
  rw [assign_roles_eq env k s hp,
    assign_loop_eq_of_some env (pick_pacman k s) s.players s.used_ghost_colors hall]

/-- Becoming the hunter does not release the promoted player's color:
whenever every player has a color key, reassignment leaves the used-color
set untouched. -/
theorem assign_roles_used (env : Env) (k : Nat) (s : ServerState)
    (hall : AllColored s) :
    (assign_roles env k s).used_ghost_colors = s.used_ghost_colors := by
  by_cases hp : s.players = []
  · rw [assign_roles_players_nil hp]
  · rw [assign_roles_map env k s hp hall]

theorem AllColored_assign (env : Env) (k : Nat) (s : ServerState)
    (hall : AllColored s) : AllColored (assign_roles env k s) := by
  by_cases hp : s.players = []
  · rwa [assign_roles_players_nil hp]
  · rw [assign_roles_map env k s hp hall]
    intro q hq
    obtain ⟨q0, hq0, rfl⟩ := List.mem_map.mp hq
    rw [assignEntry]
    split_ifs
    · rfl
    · exact hall q0 hq0

/-- A valid current designation is kept by the pick. -/
theorem pick_pacman_valid (k : Nat) {s : ServerState} {pidv : Nat}
    (hd : s.pacman_player_id = some pidv)
    (hm : pidv ∈ s.players.map Prod.fst) : pick_pacman k s = pidv := by
  rw [pick_pacman, hd]
  simp [hm]

/-! ### Claim theorems -/

/-- C1: in every state reachable by register, dispatch and unregister
operations, the number of players whose role is hunter (`pacman`) is 0 when
the registry is empty and exactly 1 otherwise. -/
theorem c1_single_hunter (maps : List GameMap) (t0 : Int) (s : ServerState)
    (h : Reachable maps t0 s) :
    countPacman s = if s.players.isEmpty then 0 else 1 :=
  countPacman_eq (Inv_reachable h)

/-- Witness for C1 at a concrete reachable state: after one registration
the registry is nonempty and the hunter count evaluates to exactly 1. -/
theorem c1_single_hunter_witness :
    (countPacman demo1 = if demo1.players.isEmpty then 0 else 1) ∧
      countPacman demo1 = 1 :=
  ⟨c1_single_hunter demoMaps 0 demo1
      (Reachable.step Reachable.init (Step.register demoEnv demo0)),
    by decide⟩

/-! ### C9: idempotence of reassignment -/

/-- C9: invoking role reassignment twice in a row with no membership change
in between leaves the entire state — in particular every player's role and
color — identical to the result of the first invocation. -/
theorem c9_reassign_idempotent (env1 env2 : Env) (k1 k2 : Nat)
    (s : ServerState) :
    assign_roles env2 k2 (assign_roles env1 k1 s) = assign_roles env1 k1 s := by
  by_cases hp : s.players = []
  · rw [assign_roles_players_nil hp, assign_roles_players_nil hp]
  · have hne1 : (assign_roles env1 k1 s).players ≠ [] := by
      rw [assign_roles_eq env1 k1 s hp]
      exact assign_loop_ne_nil env1 _ _ hp
    rw [assign_roles_eq env2 k2 _ hne1, pick_pacman_second env1 k1 k2 s hp]
    rw [assign_roles_eq env1 k1 s hp]
    simp only
    rw [assign_loop_idem env1 env2 (pick_pacman k1 s) s.players
      s.used_ghost_colors]

/-! ### C10: wall-clamping of position updates -/

/-- C10: the stored position after a position update is the requested
target when its 30-pixel hitbox is wall-free, else the x-slide, else the
y-slide, else the old position; consequently a wall-free stored position
never becomes wall-intersecting. -/
theorem c10_wall_clamping (walls : List Wall) (ox oy nx ny : Int) :
    (¬ check_wall_collision walls nx ny →
      get_valid_position walls ox oy nx ny = (nx, ny)) ∧
    (check_wall_collision walls nx ny →
      ¬ check_wall_collision walls nx oy →
      get_valid_position walls ox oy nx ny = (nx, oy)) ∧
    (check_wall_collision walls nx ny →
      check_wall_collision walls nx oy →
      ¬ check_wall_collision walls ox ny →
      get_valid_position walls ox oy nx ny = (ox, ny)) ∧
    (check_wall_collision walls nx ny →
      check_wall_collision walls nx oy →
      check_wall_collision walls ox ny →
      get_valid_position walls ox oy nx ny = (ox, oy)) ∧
    (¬ check_wall_collision walls ox oy →
      ¬ check_wall_collision walls
        (get_valid_position walls ox oy nx ny).1
        (get_valid_position walls ox oy nx ny).2) := by
  refine ⟨?_, ?_, ?_, ?_, ?_⟩ <;>
    · rw [get_valid_position]
      split_ifs <;> simp_all

/-- Witness for C10: with a wall blocking the diagonal target, the update
slides along x only, and the wall-free-stays-wall-free corollary holds at
that input. -/
theorem c10_wall_clamping_witness :
    get_valid_position [⟨180, 480, 40, 40⟩] 100 400 200 500 = (200, 400) ∧
      ¬ check_wall_collision [⟨180, 480, 40, 40⟩]
        (get_valid_position [⟨180, 480, 40, 40⟩] 100 400 200 500).1
        (get_valid_position [⟨180, 480, 40, 40⟩] 100 400 200 500).2 :=
  ⟨(c10_wall_clamping [⟨180, 480, 40, 40⟩] 100 400 200 500).2.1
      (by decide) (by decide),
    (c10_wall_clamping [⟨180, 480, 40, 40⟩] 100 400 200 500).2.2.2.2
      (by decide)⟩

/-! ### C2: arena switching -/

/-- Counterexample to C2 as stated: a valid `change_map` back to arena 0
returns with the newly active arena still holding a consumed collectible —
the handler installs the stored per-arena lists without clearing any
`eaten` flag. -/
theorem c2_counterexample :
    c2s4.current_map = 0 ∧
      (currentMap c2s4).dots.any (fun d => d.eaten) = true := by decide

/-- C2 amended: a valid `change_map` switches the arena index, installs the
stored arena content unchanged (consumed flags included — they are not
cleared), and relocates every connected player to a role-appropriate spawn
of the new arena: the hunter to its hunter spawn, each evader to one of its
evader spawns. -/
theorem c2_change_map_amended (env : Env) (s : ServerState) (pid : Nat)
    (mid : Int) (hmid : 0 ≤ mid ∧ mid < (s.maps.length : Int))
    (hspawn : (s.maps.getD mid.toNat default).ghost_spawns ≠ []) :
    ∃ s2 : ServerState,
      handle_message env s pid (ClientMsg.changeMap (some mid)) =
        Outcome.ok (broadcast_game_state env s2) ∧
      s2.current_map = mid.toNat ∧
      s2.maps = s.maps ∧
      ∀ q ∈ s.players, ∃ q2 ∈ s2.players, q2.1 = q.1 ∧
        q2.2.role = q.2.role ∧
        (q.2.role = Role.pacman →
          (q2.2.x, q2.2.y) = (s.maps.getD mid.toNat default).pacman_spawn) ∧
        (q.2.role ≠ Role.pacman →
          (q2.2.x, q2.2.y) ∈ (s.maps.getD mid.toNat default).ghost_spawns) := by
  rw [handle_message]
  simp only [hmid, if_pos, and_true, true_and]
  refine ⟨_, rfl, rfl, rfl, ?_⟩
  intro q hq
  by_cases hrole : q.2.role = Role.pacman
  · refine ⟨(q.1, { q.2 with
        x := (currentMap { s with current_map := mid.toNat }).pacman_spawn.1
        y := (currentMap { s with current_map := mid.toNat }).pacman_spawn.2 }),
      ?_, rfl, rfl, ?_, ?_⟩
    · have := List.mem_map_of_mem (fun q : Nat × Player =>
        if q.2.role = Role.pacman then
          (q.1, { q.2 with
            x := (currentMap { s with current_map := mid.toNat }).pacman_spawn.1
            y := (currentMap { s with current_map := mid.toNat }).pacman_spawn.2 })
        else
          (q.1, { q.2 with
            x := ((currentMap { s with current_map := mid.toNat }).ghost_spawns.getD
              (env.spawnPick q.1 %
                (currentMap { s with current_map := mid.toNat }).ghost_spawns.length)
              (0, 0)).1
            y := ((currentMap { s with current_map := mid.toNat }).ghost_spawns.getD
              (env.spawnPick q.1 %
                (currentMap { s with current_map := mid.toNat }).ghost_spawns.length)
              (0, 0)).2 })) hq
      simpa [hrole] using this
    · intro _
      simp [currentMap]
    · intro hco
      exact absurd hrole hco
  · refine ⟨(q.1, { q.2 with
        x := ((currentMap { s with current_map := mid.toNat }).ghost_spawns.getD
          (env.spawnPick q.1 %
            (currentMap { s with current_map := mid.toNat }).ghost_spawns.length)
          (0, 0)).1
        y := ((currentMap { s with current_map := mid.toNat }).ghost_spawns.getD
          (env.spawnPick q.1 %
            (currentMap { s with current_map := mid.toNat }).ghost_spawns.length)
          (0, 0)).2 }),
      ?_, rfl, rfl, ?_, ?_⟩
    · have := List.mem_map_of_mem (fun q : Nat × Player =>
        if q.2.role = Role.pacman then
          (q.1, { q.2 with
            x := (currentMap { s with current_map := mid.toNat }).pacman_spawn.1
            y := (currentMap { s with current_map := mid.toNat }).pacman_spawn.2 })
        else
          (q.1, { q.2 with
            x := ((currentMap { s with current_map := mid.toNat }).ghost_spawns.getD
              (env.spawnPick q.1 %
                (currentMap { s with current_map := mid.toNat }).ghost_spawns.length)
              (0, 0)).1
            y := ((currentMap { s with current_map := mid.toNat }).ghost_spawns.getD
              (env.spawnPick q.1 %
                (currentMap { s with current_map := mid.toNat }).ghost_spawns.length)
              (0, 0)).2 })) hq
      simpa [hrole] using this
    · intro hco
      exact absurd hco hrole
    · intro _
      have hcur : currentMap { s with current_map := mid.toNat } =
          s.maps.getD mid.toNat default := rfl
      rw [hcur]
      exact getD_mod_mem hspawn _ _

/-- Witness for the amended C2 on the demo trace: switching the demo
server (with the snowflake consumed) to arena 1 satisfies every conclusion
of the amended claim. -/
theorem c2_change_map_amended_witness :
    ∃ s2 : ServerState,
      handle_message demoEnv c2s2 1 (ClientMsg.changeMap (some 1)) =
        Outcome.ok (broadcast_game_state demoEnv s2) ∧
      s2.current_map = (1 : Int).toNat ∧
      s2.maps = c2s2.maps ∧
      ∀ q ∈ c2s2.players, ∃ q2 ∈ s2.players, q2.1 = q.1 ∧
        q2.2.role = q.2.role ∧
        (q.2.role = Role.pacman →
          (q2.2.x, q2.2.y) = (c2s2.maps.getD (1 : Int).toNat default).pacman_spawn) ∧
        (q.2.role ≠ Role.pacman →
          (q2.2.x, q2.2.y) ∈ (c2s2.maps.getD (1 : Int).toNat default).ghost_spawns) :=
  c2_change_map_amended demoEnv c2s2 1 1 (by decide) (by decide)

/-! ### C5: malformed and unknown messages -/

/-- Counterexample to C5 as stated: a decodable `position` message whose
payload lacks the required `position` key raises an uncaught `KeyError`;
the session is terminated (full disconnect cleanup runs and the player
record disappears) instead of the message being dropped with the
connection staying open. -/
theorem c5_counterexample :
    handle_message demoEnv demo1 1 (ClientMsg.position none) =
      Outcome.keyError demo1 ∧
    (session_step demoEnv demo1 1 (ClientMsg.position none)).2 = false ∧
    (session_step demoEnv demo1 1 (ClientMsg.position none)).1.players = [] := by
  decide

/-- C5 amended: an undecodable payload is logged and dropped with the
state unchanged and the connection open; an unknown type discriminator is
ignored (no handler runs; only the post-dispatch broadcast/respawn check
fires); but a payload missing a key its declared type requires (shown for
`position`) raises an uncaught `KeyError`, which ends the session with
full disconnect cleanup rather than keeping the connection open. -/
theorem c5_malformed_amended (env : Env) (s : ServerState) (pid : Nat)
    (t : String) :
    (handle_message env s pid ClientMsg.malformed = Outcome.jsonError s ∧
      session_step env s pid ClientMsg.malformed = (s, true)) ∧
    (handle_message env s pid (ClientMsg.unknown t) =
      Outcome.ok (broadcast_game_state env s) ∧
      (session_step env s pid (ClientMsg.unknown t)).2 = true) ∧
    (handle_message env s pid (ClientMsg.position none) =
      Outcome.keyError s ∧
      session_step env s pid (ClientMsg.position none) =
        (cleanup_player env s pid, false)) ∧
    (∀ (px : Option Int) (nm : Option String),
      handle_message env s pid
        (ClientMsg.position (some ⟨px, none, nm⟩)) = Outcome.keyError s) := by
  refine ⟨⟨rfl, rfl⟩, ⟨rfl, rfl⟩, ⟨rfl, rfl⟩, ?_⟩
  intro px nm
  cases px <;> rfl

/-! ### C7: voice mute semantics -/

/-- Counterexample to C7 as stated: after player 2 muted player 3, player
3's voice frame is relayed to nobody at all (player 1 — who muted nobody —
receives nothing), and a later relay from player 1 excludes player 3 as a
recipient for everyone: the mute flag is a single global flag on the
target, not a per-viewer filter. -/
theorem c7_counterexample :
    (c7u4.players.lookup 3).map Player.muted = some true ∧
    c7u5.sentVoice = [] ∧
    (session_step demoEnv c7u5 1
        (ClientMsg.voiceAudio (some "b") (some 0))).1.sentVoice =
      [⟨1, "b", 0, [2]⟩] := by decide

/-- C7 amended: `mute_player` sets one global `muted` flag on the target
(any sender can set or clear it); a muted player's own voice frames are
not relayed to anyone, and every relay excludes all muted players as
recipients — so one player's mute changes what every player receives. -/
theorem c7_mute_global_amended (env : Env) (s : ServerState) (pid t : Nat)
    (m : Bool) (ht : (s.players.lookup t).isSome = true) :
    handle_message env s pid (ClientMsg.mutePlayer (some t) (some m)) =
      Outcome.ok (broadcast_game_state env
        (updPlayer s t fun p => { p with muted := m })) ∧
    (∀ (a : String) (sq : Int) (p : Player), s.players.lookup pid = some p →
      p.muted = true →
      handle_message env s pid (ClientMsg.voiceAudio (some a) (some sq)) =
        Outcome.ok (broadcast_game_state env s)) ∧
    (∀ t2 ∈ voiceRecipients s pid, ∃ q ∈ s.players, q.1 = t2 ∧
      q.2.muted = false ∧ q.2.voice_chat = true ∧ t2 ≠ pid) := by
  refine ⟨?_, ?_, ?_⟩
  · rw [handle_message]
    simp [ht]
  · intro a sq p hp hm
    rw [handle_message, hp]
    simp [hm]
  · intro t2 ht2
    rw [voiceRecipients] at ht2
    obtain ⟨q, hq, hqt⟩ := List.mem_map.mp ht2
    obtain ⟨hqmem, hqc⟩ := List.mem_filter.mp hq
    simp only [decide_eq_true_eq, Bool.decide_and, Bool.and_eq_true,
      decide_eq_true_eq] at hqc
    exact ⟨q, hqmem, hqt, by simpa using hqc.2.2.1, by simpa using hqc.2.1,
      hqt ▸ hqc.1⟩

/-- Witness for the amended C7 on the demo state with three players. -/
theorem c7_mute_global_amended_witness :
    handle_message demoEnv c7u5 1 (ClientMsg.mutePlayer (some 2) (some true)) =
      Outcome.ok (broadcast_game_state demoEnv
        (updPlayer c7u5 2 fun p => { p with muted := true })) ∧
    (∀ (a : String) (sq : Int) (p : Player), c7u5.players.lookup 1 = some p →
      p.muted = true →
      handle_message demoEnv c7u5 1 (ClientMsg.voiceAudio (some a) (some sq)) =
        Outcome.ok (broadcast_game_state demoEnv c7u5)) ∧
    (∀ t2 ∈ voiceRecipients c7u5 1, ∃ q ∈ c7u5.players, q.1 = t2 ∧
      q.2.muted = false ∧ q.2.voice_chat = true ∧ t2 ≠ 1) :=
  c7_mute_global_amended demoEnv c7u5 1 2 true (by decide)

/-! ### C8: respawn scheduling -/

theorem dot_respawn_loop_eq (draw : Nat → ℚ) :
    ∀ (i0 : Nat) (l : List Dot),
      dot_respawn_loop draw i0 l =
        ((List.enumFrom i0 l).map fun p =>
          if p.2.eaten ∧ draw p.1 > mkRat 7 10 then { p.2 with eaten := false }
          else p.2,
        ((List.enumFrom i0 l).filter fun p =>
          p.2.eaten ∧ draw p.1 > mkRat 7 10).length) := by
  intro i0 l
  induction l generalizing i0 with
  | nil => rfl
  | cons d rest ih =>
    simp only [dot_respawn_loop, List.enumFrom, List.map_cons,
      List.filter_cons, ih (i0 + 1)]
    by_cases hc : d.eaten ∧ draw i0 > mkRat 7 10
    · simp [hc]
    · simp [hc]

theorem pellet_respawn_loop_eq (draw : Nat → ℚ) :
    ∀ (i0 : Nat) (l : List Pellet),
      pellet_respawn_loop draw i0 l =
        ((List.enumFrom i0 l).map fun p =>
          if p.2.eaten ∧ draw p.1 > mkRat 1 2 then { p.2 with eaten := false }
          else p.2,
        ((List.enumFrom i0 l).filter fun p =>
          p.2.eaten ∧ draw p.1 > mkRat 1 2).length) := by
  intro i0 l
  induction l generalizing i0 with
  | nil => rfl
  | cons d rest ih =>
    simp only [pellet_respawn_loop, List.enumFrom, List.map_cons,
      List.filter_cons, ih (i0 + 1)]
    by_cases hc : d.eaten ∧ draw i0 > mkRat 1 2
    · simp [hc]
    · simp [hc]

theorem dot_respawn_loop_spec (draw : Nat → ℚ) (l : List Dot) :
    dot_respawn_loop draw 0 l = (dotRespawnSpec draw l, dotRespawnCount draw l) := by
  rw [dot_respawn_loop_eq]
  rfl

theorem pellet_respawn_loop_spec (draw : Nat → ℚ) (l : List Pellet) :
    pellet_respawn_loop draw 0 l =
      (pelletRespawnSpec draw l, pelletRespawnCount draw l) := by
  rw [pellet_respawn_loop_eq]
  rfl

theorem currentMap_setCurrentDots (s : ServerState) (ds : List Dot)
    (hcur : s.current_map < s.maps.length) :
    currentMap (setCurrentDots s ds) = { currentMap s with dots := ds } := by
  rw [currentMap, setCurrentDots]
  simp only [List.getD_eq_getElem?_getD]
  rw [List.getElem?_set_self (by simpa using hcur)]
  rw [currentMap, List.getD_eq_getElem?_getD]
  rfl

theorem currentMap_setCurrentPellets (s : ServerState) (ps : List Pellet)
    (hcur : s.current_map < s.maps.length) :
    currentMap (setCurrentPellets s ps) =
      { currentMap s with power_pellets := ps } := by
  rw [currentMap, setCurrentPellets]
  simp only [List.getD_eq_getElem?_getD]
  rw [List.getElem?_set_self (by simpa using hcur)]
  rw [currentMap, List.getD_eq_getElem?_getD]
  rfl

/-- An aliased snowflake write keeps the arena index and count. -/
theorem setCurrentDots_shape (s : ServerState) (ds : List Dot) :
    (setCurrentDots s ds).current_map = s.current_map ∧
      (setCurrentDots s ds).maps.length = s.maps.length := by
  constructor
  · rfl
  · simp [setCurrentDots]

/-- C8 amended: the respawn pass runs exactly when the wall-clock time
since the last successful pass is at least (not strictly more than) the
30-unit interval; in a pass each consumed snowflake is cleared exactly
when its uniform draw exceeds 0.7 (probability 0.3) and each consumed
icicle when its draw exceeds 0.5 (probability 0.5); the interval timer is
advanced only when at least one item was cleared, so an empty pass leaves
the timer unchanged and the next broadcast attempts a pass again. -/
theorem c8_respawn_amended (env : Env) (s : ServerState)
    (hcur : s.current_map < s.maps.length) :
    (env.now - s.last_respawn_time < s.dot_respawn_interval →
      check_snowflake_respawn env s = s) ∧
    (env.now - s.last_respawn_time ≥ s.dot_respawn_interval →
      (currentMap (check_snowflake_respawn env s)).dots =
        dotRespawnSpec env.dotDraw (currentMap s).dots ∧
      (currentMap (check_snowflake_respawn env s)).power_pellets =
        pelletRespawnSpec env.pelletDraw (currentMap s).power_pellets ∧
      (check_snowflake_respawn env s).last_respawn_time =
        (if 0 < dotRespawnCount env.dotDraw (currentMap s).dots +
            pelletRespawnCount env.pelletDraw (currentMap s).power_pellets
          then env.now else s.last_respawn_time)) := by
  constructor
  · intro hlt
    rw [check_snowflake_respawn, if_neg (not_le.mpr hlt)]
  · intro hge
    rw [check_snowflake_respawn, if_pos hge]
    rw [dot_respawn_loop_spec, pellet_respawn_loop_spec]
    simp only []
    have hcur2 : (setCurrentDots s
        (dotRespawnSpec env.dotDraw (currentMap s).dots)).current_map <
        (setCurrentDots s
          (dotRespawnSpec env.dotDraw (currentMap s).dots)).maps.length := by
      rw [(setCurrentDots_shape s _).1, (setCurrentDots_shape s _).2]
      exact hcur
    by_cases hcount : 0 < dotRespawnCount env.dotDraw (currentMap s).dots +
        pelletRespawnCount env.pelletDraw (currentMap s).power_pellets
    · rw [if_pos hcount, if_pos hcount]
      refine ⟨?_, ?_, rfl⟩
      · show (currentMap (setCurrentPellets (setCurrentDots s _) _)).dots = _
        rw [currentMap_setCurrentPellets _ _ hcur2,
          currentMap_setCurrentDots _ _ hcur]
      · show (currentMap (setCurrentPellets (setCurrentDots s _) _)).power_pellets = _
        rw [currentMap_setCurrentPellets _ _ hcur2]
    · rw [if_neg hcount, if_neg hcount]
      refine ⟨?_, ?_, rfl⟩
      · show (currentMap (setCurrentPellets (setCurrentDots s _) _)).dots = _
        rw [currentMap_setCurrentPellets _ _ hcur2,
          currentMap_setCurrentDots _ _ hcur]
      · show (currentMap (setCurrentPellets (setCurrentDots s _) _)).power_pellets = _
        rw [currentMap_setCurrentPellets _ _ hcur2]

/-- Counterexample to C8 as stated: with the snowflake consumed and the
wall clock exactly 30 units past the last pass — not *exceeding* 30 — the
pass nevertheless runs on the next broadcast: the snowflake is cleared
(its draw 4/5 exceeds 0.7) and the interval timer advances. -/
theorem c8_counterexample :
    env30.now - c2s2.last_respawn_time = 30 ∧
    c2s2.dot_respawn_interval = 30 ∧
    (currentMap c2s2).dots.any (fun d => d.eaten) = true ∧
    (currentMap c8s).dots.all (fun d => ¬ d.eaten) = true ∧
    c8s.last_respawn_time = 30 := by decide

/-- Witness for the amended C8 at the demo state with a consumed
snowflake, the clock exactly at the interval boundary and a draw of 4/5. -/
theorem c8_respawn_amended_witness :
    (env30.now - c2s2.last_respawn_time < c2s2.dot_respawn_interval →
      check_snowflake_respawn env30 c2s2 = c2s2) ∧
    (env30.now - c2s2.last_respawn_time ≥ c2s2.dot_respawn_interval →
      (currentMap (check_snowflake_respawn env30 c2s2)).dots =
        dotRespawnSpec env30.dotDraw (currentMap c2s2).dots ∧
      (currentMap (check_snowflake_respawn env30 c2s2)).power_pellets =
        pelletRespawnSpec env30.pelletDraw (currentMap c2s2).power_pellets ∧
      (check_snowflake_respawn env30 c2s2).last_respawn_time =
        (if 0 < dotRespawnCount env30.dotDraw (currentMap c2s2).dots +
            pelletRespawnCount env30.pelletDraw (currentMap c2s2).power_pellets
          then env30.now else c2s2.last_respawn_time)) :=
  c8_respawn_amended env30 c2s2 (by decide)

/-! ### C3: hunter lives / score initialization -/

/-- Counterexample to C3 as stated: player 1 — the hunter on 1 life with
score 10 — overlaps the evader, dies, and is re-selected hunter in the
same event; the claim demands a restart at 3 lives / 0 score, but the
re-selected hunter keeps lives 0 and score 10: `assign_roles` initializes
`lives`/`score` only when the dictionary keys are absent, and registration
always created them. -/
theorem c3_counterexample :
    (c3t4.players.lookup 1).map Player.lives = some (some 1) ∧
    c3t4.pacman_player_id = some 1 ∧
    c3t5.pacman_player_id = some 1 ∧
    (c3t5.players.lookup 1).map Player.role = some Role.pacman ∧
    (c3t5.players.lookup 1).map Player.lives = some (some 0) ∧
    (c3t5.players.lookup 1).map Player.score = some (some 10) := by decide

theorem assign_loop_lives_score (env : Env) (pacId : Nat) :
    ∀ (l : List (Nat × Player)) (used : List Color) (id : Nat) (p : Player),
      (id, p) ∈ l → ∀ (lv : Int) (n : Nat),
      p.lives = some lv → p.score = some n →
      ∃ p2, (id, p2) ∈ (assign_loop env pacId l used).1 ∧
        p2.lives = some lv ∧ p2.score = some n := by
  intro l
  induction l with
  | nil => intro used id p hmem; simp at hmem
  | cons q rest ih =>
    intro used id p hmem lv n hl hs
    obtain ⟨qid, qp⟩ := q
    rcases List.mem_cons.mp hmem with hm | hm
    · simp only [Prod.mk.injEq] at hm
      obtain ⟨h1, h2⟩ := hm
      subst h1
      subst h2
      by_cases hq : id = pacId
      · refine ⟨{ p with
            role := Role.pacman
            color := some pacman_color
            lives := some (p.lives.getD 3)
            score := some (p.score.getD 0) }, ?_, ?_, ?_⟩
        · simp only [assign_loop, hq, if_pos]
          exact List.mem_cons_self _ _
        · simp [hl]
        · simp [hs]
      · cases hc : p.color with
        | some c =>
          refine ⟨{ p with role := Role.ghost, color := some c }, ?_, hl, hs⟩
          simp only [assign_loop, hq, if_neg, not_false_iff, hc]
          exact List.mem_cons_self _ _
        | none =>
          refine ⟨{ p with
              role := Role.ghost
              color := some (get_ghost_color used (env.colorPick id)).1 },
            ?_, hl, hs⟩
          simp only [assign_loop, hq, if_neg, not_false_iff, hc]
          exact List.mem_cons_self _ _
    · by_cases hq : qid = pacId
      · simp only [assign_loop, hq, if_pos]
        obtain ⟨p2, hp2, hl2, hs2⟩ := ih _ id p hm lv n hl hs
        exact ⟨p2, List.mem_cons_of_mem _ hp2, hl2, hs2⟩
      · cases hc : qp.color with
        | some c =>
          simp only [assign_loop, hq, if_neg, not_false_iff, hc]
          obtain ⟨p2, hp2, hl2, hs2⟩ := ih _ id p hm lv n hl hs
          exact ⟨p2, List.mem_cons_of_mem _ hp2, hl2, hs2⟩
        | none =>
          simp only [assign_loop, hq, if_neg, not_false_iff, hc]
          obtain ⟨p2, hp2, hl2, hs2⟩ := ih _ id p hm lv n hl hs
          exact ⟨p2, List.mem_cons_of_mem _ hp2, hl2, hs2⟩

/-- The registration prefix appends one entry whose record starts at
3 lives and score 0. -/
theorem register_new_entry (env : Env) (s : ServerState) :
    ∃ p0 : Player, (register env s).1 =
      assign_roles env (env.assignPick 0)
        { s with
          player_counter := s.player_counter + 1
          connected_clients := s.connected_clients ++ [s.player_counter + 1]
          players := s.players ++ [(s.player_counter + 1, p0)]
          used_ghost_colors := (get_ghost_color s.used_ghost_colors
            (env.colorPick (s.player_counter + 1))).2 } ∧
      p0.lives = some 3 ∧ p0.score = some 0 :=
  ⟨_, rfl, rfl, rfl⟩

/-- C3 amended: `lives` and `score` are created once, at registration
(3 and 0), and reassignment never rewrites values that are present — the
`assign_roles` initialization fires only for absent dictionary keys. In
particular a former hunter who is re-selected keeps whatever lives (0)
and score it already had, rather than restarting at 3 / 0. -/
theorem c3_lives_score_amended (env : Env) (k : Nat) (s : ServerState) :
    (∀ (id : Nat) (p : Player), (id, p) ∈ s.players →
      ∀ (lv : Int) (n : Nat), p.lives = some lv → p.score = some n →
      ∃ p2, (id, p2) ∈ (assign_roles env k s).players ∧
        p2.lives = some lv ∧ p2.score = some n) ∧
    (∃ p2, (s.player_counter + 1, p2) ∈ (register env s).1.players ∧
      p2.lives = some 3 ∧ p2.score = some 0) := by
  constructor
  · intro id p hmem lv n hl hs
    have hp : s.players ≠ [] := by
      intro h0
      rw [h0] at hmem
      simp at hmem
    rw [assign_roles_eq env k s hp]
    exact assign_loop_lives_score env _ s.players s.used_ghost_colors
      id p hmem lv n hl hs
  · obtain ⟨p0, heq, hl0, hs0⟩ := register_new_entry env s
    rw [heq]
    have hne : (s.players ++ [(s.player_counter + 1, p0)]) ≠ [] := by simp
    rw [assign_roles_eq _ _ _ hne]
    exact assign_loop_lives_score env _ _ _ _ p0
      (List.mem_append_right _ (List.mem_singleton.mpr rfl)) 3 0 hl0 hs0

/-- Witness for the amended C3: at the demo state before the fatal hit,
the hunter's present lives (1) and score (10) survive reassignment, and a
fresh registration starts at 3 / 0. -/
theorem c3_lives_score_amended_witness :
    (∀ (id : Nat) (p : Player), (id, p) ∈ c3t4.players →
      ∀ (lv : Int) (n : Nat), p.lives = some lv → p.score = some n →
      ∃ p2, (id, p2) ∈ (assign_roles demoEnv 0 c3t4).players ∧
        p2.lives = some lv ∧ p2.score = some n) ∧
    (∃ p2, (c3t4.player_counter + 1, p2) ∈ (register demoEnv c3t4).1.players ∧
      p2.lives = some 3 ∧ p2.score = some 0) :=
  c3_lives_score_amended demoEnv 0 c3t4

/-! ### C4: color-pool uniqueness and release -/

/-- C4: the claim fails in two ways. (1) Promotion does not release the
promoted player's pool color: after the single registration of `demo1` the
lone player was promoted to hunter, no evader holds any color, yet
`(173, 216, 230)` is still marked used. (2) Uniqueness fails while an
unused pool color remains: after eight registrations exhaust the
seven-color pool (the eighth player receiving a fallback duplicate of
evader 2's color) and player 3 then disconnects, the freed color
`(152, 251, 152)` is an unused pool color held by nobody while evaders 2
and 8 still display the same color `(255, 182, 193)`. -/
theorem c4_counterexample :
    ((demo1.players.lookup 1).map Player.role = some Role.pacman ∧
      demo1.pacman_player_id = some 1 ∧
      demo1.used_ghost_colors = [(173, 216, 230)] ∧
      ghostColors demo1 = []) ∧
    ((152, 251, 152) ∈ ghost_colors_available ∧
      (152, 251, 152) ∉ c4w2.used_ghost_colors ∧
      (∀ q ∈ c4w2.players, q.2.color ≠ some (152, 251, 152)) ∧
      (c4w2.players.lookup 2).map Player.role = some Role.ghost ∧
      (c4w2.players.lookup 8).map Player.role = some Role.ghost ∧
      (c4w2.players.lookup 2).map Player.color =
        some (some (255, 182, 193)) ∧
      (c4w2.players.lookup 8).map Player.color =
        some (some (255, 182, 193))) := by
  decide

/-- C4 (amended): what the code actually guarantees about the pool.
(1) While some palette color is not marked used, a newly issued color is a
palette color distinct from every used one. (2) Disconnect release holds:
cleaning up an evader holding color `c` erases `c` from the used set (the
reassignment that follows leaves the set untouched because every remaining
player already has a color). (3) Promotion release fails: whenever every
player has a color, reassignment — including one that promotes a colored
evader to hunter — leaves the used-color set exactly unchanged, so the
promoted player's old color is never returned to the pool. -/
theorem c4_color_pool_amended (env : Env) (k : Nat) (s : ServerState) :
    (∀ used j,
      ghost_colors_available.filter (fun c => ¬ used.contains c) ≠ [] →
      (get_ghost_color used j).1 ∈ ghost_colors_available ∧
      (get_ghost_color used j).1 ∉ used) ∧
    (∀ pid p c, s.players.lookup pid = some p → p.role = Role.ghost →
      p.color = some c → AllColored s →
      (cleanup_player env s pid).used_ghost_colors =
        s.used_ghost_colors.erase c) ∧
    (AllColored s →
      (assign_roles env k s).used_ghost_colors = s.used_ghost_colors) := by
  refine ⟨?_, ?_, fun hall => assign_roles_used env k s hall⟩
  · intro used j hne
    exact ⟨(get_ghost_color_fresh j hne).1, (get_ghost_color_fresh j hne).2.1⟩
  · intro pid p c hl hrole hcol hall
    simp only [cleanup_player, hl, hrole, hcol]
    split_ifs <;>
    · rw [assign_roles_used _ _ _
        (fun q hq => hall q (List.mem_of_mem_filter hq))]

theorem c4_color_pool_amended_witness :
    ((get_ghost_color [] 0).1 ∈ ghost_colors_available ∧
      (get_ghost_color [] 0).1 ∉ ([] : List Color)) ∧
    (cleanup_player demoEnv c6s 2).used_ghost_colors =
      c6s.used_ghost_colors.erase (173, 216, 230) ∧
    (assign_roles demoEnv 0 c6s).used_ghost_colors =
      c6s.used_ghost_colors :=
  ⟨(c4_color_pool_amended demoEnv 0 c6s).1 [] 0 (by decide),
   (c4_color_pool_amended demoEnv 0 c6s).2.1 2
     { x := 410, y := 500, role := Role.ghost,
       color := some (173, 216, 230), score := none, power_mode := false,
       power_timer := 0, lives := none, name := "Player2",
       voice_chat := true, muted := false } (173, 216, 230)
     rfl rfl rfl (by unfold AllColored; decide),
   (c4_color_pool_amended demoEnv 0 c6s).2.2 (by unfold AllColored; decide)⟩

/-! ### C6: hunter-death hand-off -/

theorem lookup_eq_of_mem_nodup :
    ∀ {ps : List (Nat × Player)}, (ps.map Prod.fst).Nodup →
      ∀ {id : Nat} {p : Player}, (id, p) ∈ ps → ps.lookup id = some p := by
  intro ps
  induction ps with
  | nil =>
    intro _ id p h
    simp at h
  | cons q rest ih =>
    intro hnd id p hmem
    obtain ⟨k, v⟩ := q
    simp only [List.map_cons, List.nodup_cons] at hnd
    rcases List.mem_cons.mp hmem with he | hm
    · rw [Prod.mk.injEq] at he
      obtain ⟨rfl, rfl⟩ := he
      simp [List.lookup]
    · have hne : id ≠ k := fun he2 =>
        hnd.1 (he2 ▸ List.mem_map_of_mem Prod.fst hm)
      have hb : (id == k) = false := beq_eq_false_iff_ne.mpr hne
      simp only [List.lookup, hb]
      exact ih hnd.2 hm

theorem mem_overlappingGhosts {s : ServerState} {pid : Nat} {x y : Int}
    {id : Nat} :
    id ∈ overlappingGhosts s pid x y ↔
      ∃ g, (id, g) ∈ s.players ∧ id ≠ pid ∧ g.role = Role.ghost ∧
        ghostOverlap x y g.x g.y = true := by
  simp only [overlappingGhosts, List.mem_map, List.mem_filter,
    decide_eq_true_eq]
  constructor
  · rintro ⟨⟨i, g⟩, ⟨hmem, hpred⟩, rfl⟩
    exact ⟨g, hmem, hpred⟩
  · rintro ⟨g, hmem, hpred⟩
    exact ⟨(id, g), ⟨hmem, hpred⟩, rfl⟩

theorem ghost_step_id {env : Env} {pid : Nat} {x y : Int} {power : Bool}
    {s : ServerState} {id : Nat}
    (h : ∀ g, s.players.lookup id = some g →
      ¬(id ≠ pid ∧ g.role = Role.ghost ∧ ghostOverlap x y g.x g.y = true)) :
    ghost_collision_step env pid x y power s id = s := by
  rcases hg : s.players.lookup id with _ | g
  · simp [ghost_collision_step, hg]
  · simp only [ghost_collision_step, hg]
    rw [if_neg (h g hg)]

theorem foldl_ghost_id (env : Env) (pid : Nat) (x y : Int) (power : Bool) :
    ∀ (l : List Nat) (s : ServerState),
      (∀ id ∈ l, ghost_collision_step env pid x y power s id = s) →
      l.foldl (ghost_collision_step env pid x y power) s = s
  | [], _, _ => rfl
  | id :: rest, s, h => by
    rw [List.foldl_cons, h id (List.mem_cons_self _ _)]
    exact foldl_ghost_id env pid x y power rest s
      (fun i hi => h i (List.mem_cons_of_mem _ hi))

theorem assignEntry_fst (pac : Nat) (q : Nat × Player) :
    (assignEntry pac q).1 = q.1 := by
  rw [assignEntry]
  split_ifs <;> rfl

theorem lookup_map_assignEntry (pac : Nat) :
    ∀ (l : List (Nat × Player)) (id : Nat),
      (l.map (assignEntry pac)).lookup id =
        (l.lookup id).map fun p => (assignEntry pac (id, p)).2
  | [], _ => rfl
  | (k, v) :: rest, id => by
    have hpair : assignEntry pac (k, v) = (k, (assignEntry pac (k, v)).2) := by
      rw [assignEntry]
      split_ifs <;> rfl
    rw [List.map_cons, hpair]
    cases hik : id == k
    · simp only [List.lookup, hik]
      exact lookup_map_assignEntry pac rest id
    · have hk : id = k := by simpa using hik
      subst hk
      simp only [List.lookup, hik]
      rfl

theorem AllColored_updPlayer {s : ServerState} {pid : Nat}
    {f : Player → Player} (hf : ∀ p, (f p).color = p.color)
    (h : AllColored s) : AllColored (updPlayer s pid f) := by
  intro q hq
  obtain ⟨q0, hq0, _, hsnd⟩ := mem_updatePlayer hq
  rcases hsnd with h2 | h2 <;> rw [h2]
  · exact h q0 hq0
  · rw [hf]
    exact h q0 hq0

theorem ghost_step_death (env : Env) (pid gid : Nat) (x y : Int)
    (s : ServerState) (g p : Player)
    (hg : s.players.lookup gid = some g)
    (hcond : gid ≠ pid ∧ g.role = Role.ghost ∧
      ghostOverlap x y g.x g.y = true)
    (hl : s.players.lookup pid = some p) (hlives : p.lives = some 1) :
    ghost_collision_step env pid x y false s gid =
      hunter_death env
        (updPlayer s pid fun q => { q with lives := some (q.lives.getD 3 - 1) })
        pid gid { p with lives := some 0 } := by
  have hp1 : (updPlayer s pid fun q =>
      { q with lives := some (q.lives.getD 3 - 1) }).players.lookup pid =
      some { p with lives := some 0 } := by
    simp only [updPlayer]
    rw [lookup_updatePlayer_self, hl]
    simp [hlives]
  simp only [ghost_collision_step, hg]
  rw [if_pos hcond, if_neg Bool.false_ne_true]
  simp only [hp1, Option.getD_some, le_refl, if_true]
  rfl

theorem hunter_death_spec (env : Env) (s1 : ServerState) (pid gid : Nat)
    (p1 : Player)
    (hne : s1.players ≠ []) (hall1 : AllColored s1)
    (hl1 : s1.players.lookup pid = some p1)
    (hl0 : p1.lives = some 0)
    (hsp : (currentMap s1).ghost_spawns ≠ [])
    (hav : ghost_colors_available.filter
      (fun c => ¬ s1.used_ghost_colors.contains c) ≠ []) :
    ∃ newpac,
      (hunter_death env s1 pid gid p1).pacman_player_id = some newpac ∧
      newpac ∈ s1.players.map Prod.fst ∧
      (∀ id, id ≠ pid →
        (hunter_death env s1 pid gid p1).players.lookup id =
          (s1.players.lookup id).map fun p => (assignEntry newpac (id, p)).2) ∧
      (∃ q, (hunter_death env s1 pid gid p1).players.lookup pid = some q ∧
        q.lives = some 0 ∧
        (∃ c, q.color = some c ∧ c ∈ ghost_colors_available ∧
          c ∉ s1.used_ghost_colors) ∧
        ∃ sp, sp ∈ (currentMap s1).ghost_spawns ∧ q.x = sp.1 ∧ q.y = sp.2) ∧
      (hunter_death env s1 pid gid p1).ratingCalls =
        s1.ratingCalls ++ [⟨p1.name, p1.score.getD 0, false⟩] := by
  set s3 : ServerState := { s1 with
    pacman_player_id := none
    ratingCalls := s1.ratingCalls ++ [⟨p1.name, p1.score.getD 0, false⟩] }
    with hs3def
  have hs3ne : s3.players ≠ [] := hne
  have hall3 : AllColored s3 := hall1
  have hl3 : s3.players.lookup pid = some p1 := hl1
  set pac2 : Nat := pick_pacman (env.assignPick (gid + 1)) s3 with hpac2def
  have hassign : assign_roles env (env.assignPick (gid + 1)) s3 =
      { s3 with
        players := s3.players.map (assignEntry pac2)
        pacman_player_id := some pac2 } :=
    assign_roles_map env _ s3 hs3ne hall3
  set sp : Int × Int := (currentMap s1).ghost_spawns.getD
      (env.spawnPick gid % (currentMap s1).ghost_spawns.length) (0, 0)
    with hspdef
  set cu : Color × List Color :=
      get_ghost_color s1.used_ghost_colors (env.colorPick gid) with hcudef
  have hrw : hunter_death env s1 pid gid p1 =
      updPlayer
        { s3 with
          players := s3.players.map (assignEntry pac2)
          pacman_player_id := some pac2
          used_ghost_colors := cu.2 }
        pid (fun q =>
          { q with x := sp.1, y := sp.2, color := some cu.1 }) := by
    simp only [hunter_death]
    rw [← hs3def, hassign]
    rfl
  have hcufresh : cu.1 ∈ ghost_colors_available ∧
      cu.1 ∉ s1.used_ghost_colors ∧
      cu.2 = s1.used_ghost_colors.insert cu.1 := by
    rw [hcudef]
    exact get_ghost_color_fresh (env.colorPick gid) hav
  have hspmem : sp ∈ (currentMap s1).ghost_spawns := by
    rw [hspdef]
    exact getD_mod_mem hsp _ _
  have hlook : (updPlayer
      { s3 with
        players := s3.players.map (assignEntry pac2)
        pacman_player_id := some pac2
        used_ghost_colors := cu.2 }
      pid (fun q =>
        { q with x := sp.1, y := sp.2, color := some cu.1 })).players.lookup
        pid =
      some { (assignEntry pac2 (pid, p1)).2 with
        x := sp.1, y := sp.2, color := some cu.1 } := by
    simp only [updPlayer]
    rw [lookup_updatePlayer_self]
    rw [lookup_map_assignEntry, hl3]
    rfl
  have hlive : (assignEntry pac2 (pid, p1)).2.lives = some 0 := by
    rw [assignEntry]
    split_ifs
    · simp [hl0]
    · exact hl0
  rw [hrw]
  refine ⟨pac2, rfl, pick_pacman_mem _ hs3ne, ?_, ⟨_, hlook, hlive, ?_, ?_⟩,
    rfl⟩
  · intro id hid
    simp only [updPlayer]
    rw [lookup_updatePlayer_ne _ _ _ _ hid]
    rw [lookup_map_assignEntry]
  · exact ⟨cu.1, rfl, hcufresh.1, hcufresh.2.1⟩
  · exact ⟨sp, hspmem, rfl, rfl⟩

/-- C6: when the designated hunter, not in power mode and on its last
life, processes a position update whose validated position overlaps
exactly the evader `gid` (and a spawn and an unused pool color are
available), the collision pass decrements the hunter's lives to 0,
records exactly one rating call keyed by the hunter's display name with
`is_win = false`, designates a successor hunter from the connected set,
and relocates the former hunter to one of the evader spawns with a
freshly issued pool color. -/
theorem c6_hunter_death_handoff (env : Env) (s : ServerState) (pid gid : Nat)
    (x y : Int) (p : Player)
    (hInv : Inv s) (hall : AllColored s)
    (hl : s.players.lookup pid = some p)
    (hrole : p.role = Role.pacman)
    (hdes : s.pacman_player_id = some pid)
    (hpow : p.power_mode = false)
    (hlives : p.lives = some 1)
    (hover : overlappingGhosts s pid x y = [gid])
    (hsp : (currentMap s).ghost_spawns ≠ [])
    (hav : ghost_colors_available.filter
      (fun c => ¬ s.used_ghost_colors.contains c) ≠ []) :
    (∃ q, (check_ghost_collision env s pid x y).players.lookup pid = some q ∧
      q.lives = some 0 ∧
      (∃ c, q.color = some c ∧ c ∈ ghost_colors_available ∧
        c ∉ s.used_ghost_colors) ∧
      ∃ sp, sp ∈ (currentMap s).ghost_spawns ∧ q.x = sp.1 ∧ q.y = sp.2) ∧
    (check_ghost_collision env s pid x y).ratingCalls =
      s.ratingCalls ++ [⟨p.name, p.score.getD 0, false⟩] ∧
    ∃ newpac, (check_ghost_collision env s pid x y).pacman_player_id =
      some newpac ∧ newpac ∈ keys s := by
  obtain ⟨⟨hroles, _⟩, hnd, _⟩ := hInv
  have hnd' : (s.players.map Prod.fst).Nodup := hnd
  have hgid_ov : gid ∈ overlappingGhosts s pid x y := by
    rw [hover]
    exact List.mem_cons_self _ _
  obtain ⟨g, hgmem, hgne, hgrole, hgover⟩ := mem_overlappingGhosts.mp hgid_ov
  have hg : s.players.lookup gid = some g := lookup_eq_of_mem_nodup hnd' hgmem
  have hid_s : ∀ id, id ≠ gid →
      ghost_collision_step env pid x y false s id = s := by
    intro id hne2
    apply ghost_step_id
    intro g2 hg2 hcond2
    apply hne2
    have hmem2 : id ∈ overlappingGhosts s pid x y :=
      mem_overlappingGhosts.mpr ⟨g2, lookup_mem hg2, hcond2⟩
    rw [hover] at hmem2
    simpa using hmem2
  have hgid_ids : gid ∈ s.players.map Prod.fst :=
    List.mem_map_of_mem Prod.fst hgmem
  obtain ⟨l1, l2, hids⟩ := List.append_of_mem hgid_ids
  have hnd2 : (l1 ++ gid :: l2).Nodup := hids ▸ hnd'
  rw [List.nodup_append] at hnd2
  obtain ⟨hnl1, hnl2c, hdisj⟩ := hnd2
  have hg_l1 : gid ∉ l1 := fun hmem => hdisj hmem (List.mem_cons_self _ _)
  have hg_l2 : gid ∉ l2 := (List.nodup_cons.mp hnl2c).1
  have hfold : check_ghost_collision env s pid x y =
      l2.foldl (ghost_collision_step env pid x y false)
        (ghost_collision_step env pid x y false s gid) := by
    simp only [check_ghost_collision, hl, hpow]
    rw [hids, List.foldl_append, List.foldl_cons,
      foldl_ghost_id env pid x y false l1 s
        (fun id hid => hid_s id (fun he => hg_l1 (he ▸ hid)))]
  set s1 : ServerState := updPlayer s pid fun q =>
      { q with lives := some (q.lives.getD 3 - 1) } with hs1def
  have hstep : ghost_collision_step env pid x y false s gid =
      hunter_death env s1 pid gid { p with lives := some 0 } :=
    ghost_step_death env pid gid x y s g p hg ⟨hgne, hgrole, hgover⟩ hl hlives
  have hs_ne : s.players ≠ [] := by
    intro h0
    rw [h0] at hl
    simp [List.lookup] at hl
  have hs1ne : s1.players ≠ [] := by
    intro h0
    exact hs_ne (List.map_eq_nil.mp h0)
  have hall1 : AllColored s1 := AllColored_updPlayer (fun _ => rfl) hall
  have hl1 : s1.players.lookup pid = some { p with lives := some 0 } := by
    rw [hs1def]
    simp only [updPlayer]
    rw [lookup_updatePlayer_self, hl]
    simp [hlives]
  have hsp1 : (currentMap s1).ghost_spawns ≠ [] := hsp
  have hav1 : ghost_colors_available.filter
      (fun c => ¬ s1.used_ghost_colors.contains c) ≠ [] := hav
  obtain ⟨pac2, hpacr, hpacmem, hlookother,
    ⟨q, hlookpid, hqlives, hqcol, hqpos⟩, hrating⟩ :=
    hunter_death_spec env s1 pid gid { p with lives := some 0 } hs1ne hall1
      hl1 rfl hsp1 hav1
  have hpacmem2 : pac2 ∈ s.players.map Prod.fst := by
    rw [← keys_updatePlayer s.players pid
      (fun q => { q with lives := some (q.lives.getD 3 - 1) })]
    exact hpacmem
  have hid_r : ∀ id ∈ l2, ghost_collision_step env pid x y false
      (hunter_death env s1 pid gid { p with lives := some 0 }) id =
      hunter_death env s1 pid gid { p with lives := some 0 } := by
    intro id hidl2
    apply ghost_step_id
    intro g2 hg2 hcond2
    have hidpid : id ≠ pid := hcond2.1
    have hidgid : id ≠ gid := fun he => hg_l2 (he ▸ hidl2)
    rw [hlookother id hidpid] at hg2
    have hs1id : s1.players.lookup id = s.players.lookup id := by
      rw [hs1def]
      simp only [updPlayer]
      exact lookup_updatePlayer_ne _ _ _ _ hidpid
    rw [hs1id] at hg2
    rcases hgs : s.players.lookup id with _ | g0
    · rw [hgs] at hg2
      simp at hg2
    · rw [hgs] at hg2
      simp only [Option.map_some', Option.some_inj] at hg2
      have hg0mem : (id, g0) ∈ s.players := lookup_mem hgs
      have hg0role : g0.role = Role.ghost := by
        cases hr0 : g0.role
        · exfalso
          have h2 := (hroles (id, g0) hg0mem).mp hr0
          rw [hdes] at h2
          exact hidpid (Option.some_inj.mp h2).symm
        · rfl
      subst hg2
      by_cases hpc : id = pac2
      · simp only [assignEntry, hpc, if_pos] at hcond2
        exact absurd hcond2.2.1 (by decide)
      · simp only [assignEntry, hpc, if_neg, not_false_iff] at hcond2
        apply hidgid
        have hmem3 : id ∈ overlappingGhosts s pid x y :=
          mem_overlappingGhosts.mpr ⟨g0, hg0mem, hidpid, hg0role, hcond2.2.2⟩
        rw [hover] at hmem3
        simpa using hmem3
  have hfold2 : l2.foldl (ghost_collision_step env pid x y false)
      (hunter_death env s1 pid gid { p with lives := some 0 }) =
      hunter_death env s1 pid gid { p with lives := some 0 } :=
    foldl_ghost_id env pid x y false l2 _ hid_r
  rw [hfold, hstep, hfold2]
  exact ⟨⟨q, hlookpid, hqlives, hqcol, hqpos⟩, hrating, pac2, hpacr, hpacmem2⟩

theorem c6_hunter_death_handoff_witness :
    (∃ q, (check_ghost_collision demoEnv c6s 1 405 500).players.lookup 1 =
        some q ∧ q.lives = some 0 ∧
      (∃ c, q.color = some c ∧ c ∈ ghost_colors_available ∧
        c ∉ c6s.used_ghost_colors) ∧
      ∃ sp, sp ∈ (currentMap c6s).ghost_spawns ∧ q.x = sp.1 ∧ q.y = sp.2) ∧
    (check_ghost_collision demoEnv c6s 1 405 500).ratingCalls =
      c6s.ratingCalls ++ [⟨"Player1", 70, false⟩] ∧
    ∃ newpac, (check_ghost_collision demoEnv c6s 1 405 500).pacman_player_id =
      some newpac ∧ newpac ∈ keys c6s :=
  c6_hunter_death_handoff demoEnv c6s 1 2 405 500
    { x := 400, y := 500, role := Role.pacman, color := some pacman_color,
      score := some 70, power_mode := false, power_timer := 0,
      lives := some 1, name := "Player1", voice_chat := true, muted := false }
    ⟨⟨by decide, fun _ => ⟨1, by decide, by decide⟩⟩, by decide, by decide⟩
    (by unfold AllColored; decide) rfl rfl rfl rfl rfl (by decide)
    (by decide) (by decide)

end PacmanServer
